import Mathlib

/-!
Shallow embedding of the knuckletrainer decision core (src/wasm/src/lib.rs):
the 3×3 dice-grid rules engine, game-state transitions, heuristic
evaluation, the expectimax search (max/min/chance nodes, transposition
table, node and time budgets), the decision entry point, the opponent
profile, and policy/value-network weight loading.

Modelling conventions:
* `u8`/`u32`/`usize` are modelled as `ℕ`; where the source uses saturating
  arithmetic this is made explicit (`satAdd`); wrapping `u64` hash
  arithmetic carries an explicit `% 2^64`.
* `f64` scalars are modelled as exact rationals `ℚ`; the running
  best-value accumulators that the source seeds with `f64::NEG_INFINITY` /
  `f64::INFINITY` use an explicit extended type `F64` with IEEE-style
  `max`/`min`/`add`/comparison behaviour.
* The host capabilities `js_sys::Date::now()` and `js_sys::Math::random()`
  are modelled as oracle streams carried in the search context.
* Fallible operations return `Option`.  An out-of-range array index
  (a panic in the source, reachable only outside the documented data
  model, e.g. a grid cell value above 6) is totalized; theorems that would
  otherwise leave the faithful region carry the data-model bounds as
  hypotheses.
-/

namespace Knuckle

/-- `Player` enum from the source. -/
inductive Player where
  | Player1
  | Player2
deriving DecidableEq

/-- `GamePhase` enum from the source. -/
inductive GamePhase where
  | Rolling
  | Placing
  | Ended
deriving DecidableEq

/-- `Grid`: 3 columns × 3 rows stored flat as `data[col*3+row]`;
0 = empty, 1..6 = die value (`u8` in the source). -/
structure Grid where
  data : Fin 9 → ℕ

/-- `Grid::get`.  An out-of-range index would be an array-bounds panic in
the source; the model returns 0 there (every internal call site keeps
`col < 3` and `row < 3`). -/
def Grid.get (g : Grid) (col row : ℕ) : ℕ :=
  if h : col * 3 + row < 9 then g.data ⟨col * 3 + row, h⟩ else 0

/-- `Grid::set` (an out-of-range write, a panic in the source, leaves the
grid unchanged in the model). -/
def Grid.set (g : Grid) (col row v : ℕ) : Grid :=
  ⟨fun i => if i.val = col * 3 + row then v else g.data i⟩

/-- `Grid::is_column_full`. -/
def Grid.isColumnFull (g : Grid) (col : ℕ) : Bool :=
  g.get col 0 != 0 && g.get col 1 != 0 && g.get col 2 != 0

/-- `Grid::get_empty_row`: first row (from 0) holding 0, if any. -/
def Grid.getEmptyRow (g : Grid) (col : ℕ) : Option ℕ :=
  if g.get col 0 = 0 then some 0
  else if g.get col 1 = 0 then some 1
  else if g.get col 2 = 0 then some 2
  else none

/-- `Grid::place_die`: occupy the lowest empty row; `none` (the source
returns `false` without mutating) when the column is full. -/
def Grid.place_die (g : Grid) (col v : ℕ) : Option Grid :=
  (g.getEmptyRow col).map fun row => g.set col row v

/-- The three cells of a column, bottom (row 0) first. -/
def Grid.colList (g : Grid) (col : ℕ) : List ℕ :=
  [g.get col 0, g.get col 1, g.get col 2]

/-- One step of the `remove_matching` row loop: keep a non-empty,
non-matching cell (appending it after the survivors collected so far),
count a matching cell as removed, drop an empty cell. -/
def removeStep (value : ℕ) (acc : List ℕ × ℕ) (v : ℕ) : List ℕ × ℕ :=
  if v ≠ 0 ∧ v ≠ value then (acc.1 ++ [v], acc.2)
  else if v = value then (acc.1, acc.2 + 1)
  else acc

/-- `Grid::remove_matching`: remove every cell of the column equal to
`value`, compact the survivors downward, zero-fill the rest, and return
the new grid together with the removed count. -/
def Grid.remove_matching (g : Grid) (col value : ℕ) : Grid × ℕ :=
  let vs := g.colList col
  let kr := vs.foldl (removeStep value) ([], 0)
  let wr : ℕ → ℕ := fun row => if row < kr.1.length then kr.1.getD row 0 else 0
  (((g.set col 0 (wr 0)).set col 1 (wr 1)).set col 2 (wr 2), kr.2)

/-- `Grid::is_full`: all nine cells occupied. -/
def Grid.is_full (g : Grid) : Bool :=
  (List.finRange 9).all fun i => g.data i != 0

/-- Build a grid from a flat list, missing entries empty (also the
defensive copy-and-pad decoding of host-provided arrays in
`get_best_move_extended`). -/
def gridOfList (l : List ℕ) : Grid :=
  ⟨fun i => l.getD i.val 0⟩

/-- `GameState` from the source.  `turn_number` is `u32` in the source;
its only mutation is a single increment per applied move, far below
wrap-around, so it is modelled as `ℕ`. -/
structure GameState where
  grid1 : Grid
  grid2 : Grid
  current_player : Player
  current_die : Option ℕ
  phase : GamePhase
  turn_number : ℕ

/-- The other player (the source swaps inline). -/
def otherPlayer : Player → Player
  | Player.Player1 => Player.Player2
  | Player.Player2 => Player.Player1

/-- The acting player's own grid. -/
def GameState.actingGrid (s : GameState) : Grid :=
  match s.current_player with
  | Player.Player1 => s.grid1
  | Player.Player2 => s.grid2

/-- The acting player's opponent's grid. -/
def GameState.opponentGrid (s : GameState) : Grid :=
  match s.current_player with
  | Player.Player1 => s.grid2
  | Player.Player2 => s.grid1

/-- Write the acting player's grid and the opponent's grid back into the
state (the mutable-borrow pair of `apply_move`). -/
def GameState.withGrids (s : GameState) (mine opp : Grid) : GameState :=
  match s.current_player with
  | Player.Player1 => { s with grid1 := mine, grid2 := opp }
  | Player.Player2 => { s with grid1 := opp, grid2 := mine }

/-- `apply_move`: place the current die in the acting player's column,
unconditionally remove matching dice from the opponent's column, end the
game if the acting grid is now full, otherwise pass the turn. -/
def apply_move (s : GameState) (col : ℕ) : Option GameState :=
  match s.current_die with
  | none => none
  | some die_value =>
    match (s.actingGrid).place_die col die_value with
    | none => none
    | some myg =>
      let oppg := ((s.opponentGrid).remove_matching col die_value).1
      if myg.is_full then
        some { s.withGrids myg oppg with phase := GamePhase.Ended }
      else
        some { s.withGrids myg oppg with
               current_player := otherPlayer s.current_player,
               current_die := none,
               phase := GamePhase.Rolling,
               turn_number := s.turn_number + 1 }

/-- `roll_die`: set the current die and enter the placing phase. -/
def roll_die (s : GameState) (die_value : ℕ) : GameState :=
  { s with current_die := some die_value, phase := GamePhase.Placing }

/-- `calculate_column_score`: Σ over faces 1..6 of `face * count²`.
(The source indexes a 7-slot count array with the raw cell value; a cell
above 6 would panic there and contributes nothing here.) -/
def calculate_column_score (column : List ℕ) : ℤ :=
  ((List.range 6).map fun k =>
    ((k : ℤ) + 1) * (column.count (k + 1) : ℤ) * (column.count (k + 1) : ℤ)).sum

/-- `calculate_grid_score`: sum of the three column scores. -/
def calculate_grid_score (g : Grid) : ℤ :=
  calculate_column_score (g.colList 0) + calculate_column_score (g.colList 1)
    + calculate_column_score (g.colList 2)

/-- Replace the first zero of a list (the `for row … break` fill loop of
`calculate_move_score_gain`). -/
def placeFirstZero : List ℕ → ℕ → List ℕ
  | [], _ => []
  | x :: xs, v => if x = 0 then v :: xs else x :: placeFirstZero xs v

/-- `calculate_move_score_gain`: column score delta from dropping
`die_value` onto the first empty cell. -/
def calculate_move_score_gain (g : Grid) (col die_value : ℕ) : ℤ :=
  let column := g.colList col
  calculate_column_score (placeFirstZero column die_value)
    - calculate_column_score column

/-- `calculate_opponent_score_loss`: score the opponent's column loses if
every cell equal to `die_value` is removed (and the rest compacted). -/
def calculate_opponent_score_loss (g : Grid) (col die_value : ℕ) : ℤ :=
  let column := g.colList col
  let removedCol := column.map fun x => if x = die_value then 0 else x
  calculate_column_score column
    - calculate_column_score (removedCol.filter fun x => x ≠ 0)

/-- `DifficultyConfig` from the source (`f64` fields as `ℚ`). -/
structure DifficultyConfig where
  depth : ℕ
  randomness : ℚ
  offense_weight : ℚ
  defense_weight : ℚ
  advanced_eval : Bool
  adversarial : Bool
  time_budget_ms : ℚ
deriving DecidableEq

/-- `evaluate_basic`: own grid score minus the opponent's, oriented to the
queried player. -/
def evaluate_basic (s : GameState) (player : Player) : ℚ :=
  let score1 : ℚ := (calculate_grid_score s.grid1 : ℚ)
  let score2 : ℚ := (calculate_grid_score s.grid2 : ℚ)
  match player with
  | Player.Player1 => score1 - score2
  | Player.Player2 => score2 - score1

/-- Number of occupied cells of a grid (the `total_dice` count of
`evaluate_advanced`, taken over the queried player's own grid). -/
def Grid.diceCount (g : Grid) : ℕ :=
  ((List.finRange 9).filter fun i => g.data i ≠ 0).length

/-- `evaluate_advanced`: terminal states collapse to ±10000/0 on the sign
of the base score; otherwise base score × offense weight plus per-column
attack-potential and vulnerability terms scaled by game progress. -/
def evaluate_advanced (s : GameState) (player : Player) (config : DifficultyConfig) : ℚ :=
  let my_grid := match player with
    | Player.Player1 => s.grid1
    | Player.Player2 => s.grid2
  let opp_grid := match player with
    | Player.Player1 => s.grid2
    | Player.Player2 => s.grid1
  let my_score : ℚ := (calculate_grid_score my_grid : ℚ)
  let opp_score : ℚ := (calculate_grid_score opp_grid : ℚ)
  let base_score := my_score - opp_score
  if s.phase = GamePhase.Ended then
    if base_score > 0 then 10000
    else if base_score < 0 then -10000
    else 0
  else
    let game_progress : ℚ := (my_grid.diceCount : ℚ) / 9
    let colTerm : ℕ → ℚ := fun col =>
      let attack : ℚ :=
        if ¬ opp_grid.isColumnFull col then
          ((calculate_opponent_score_loss opp_grid col 6 : ℚ) / 6)
            * (1 - game_progress * (3 / 10)) * config.offense_weight
        else 0
      let my_col := my_grid.colList col
      let opp_col := opp_grid.colList col
      let opp_empty := (opp_col.filter fun v => v = 0).length
      let defense : ℚ :=
        if opp_empty > 0 then
          (((my_col.filter fun v => v ≠ 0).map fun v => (v : ℚ) * (1 / 2)).sum)
            * game_progress * config.defense_weight
        else 0
      attack - defense
    let positional := colTerm 0 + colTerm 1 + colTerm 2
    base_score * config.offense_weight + positional

/-- `evaluate`: dispatch on the `advanced_eval` flag. -/
def evaluate (s : GameState) (player : Player) (config : DifficultyConfig) : ℚ :=
  if config.advanced_eval then evaluate_advanced s player config
  else evaluate_basic s player

/-- `evaluate_move_quick`: cheap move-ordering heuristic — own column
score gain plus opponent column score loss for the same die. -/
def evaluate_move_quick (s : GameState) (col die_value : ℕ) (player : Player) : ℚ :=
  let my_grid := match player with
    | Player.Player1 => s.grid1
    | Player.Player2 => s.grid2
  let opp_grid := match player with
    | Player.Player1 => s.grid2
    | Player.Player2 => s.grid1
  (calculate_move_score_gain my_grid col die_value : ℚ)
    + (calculate_opponent_score_loss opp_grid col die_value : ℚ)

/-- Extended `f64` values: the search seeds running best values with
`f64::NEG_INFINITY` / `f64::INFINITY`, so the value domain keeps the IEEE
special values explicitly (every number actually produced is an exact
rational). -/
inductive F64 where
  | ninf
  | pinf
  | nan
  | num (q : ℚ)
deriving DecidableEq

/-- Rust `f64::max` (NaN-ignoring: if one side is NaN the other wins). -/
def F64.fmax : F64 → F64 → F64
  | F64.nan, b => b
  | a, F64.nan => a
  | F64.pinf, _ => F64.pinf
  | _, F64.pinf => F64.pinf
  | F64.ninf, b => b
  | a, F64.ninf => a
  | F64.num a, F64.num b => F64.num (max a b)

/-- Rust `f64::min` (NaN-ignoring). -/
def F64.fmin : F64 → F64 → F64
  | F64.nan, b => b
  | a, F64.nan => a
  | F64.ninf, _ => F64.ninf
  | _, F64.ninf => F64.ninf
  | F64.pinf, b => b
  | a, F64.pinf => a
  | F64.num a, F64.num b => F64.num (min a b)

/-- IEEE `f64` addition on the extended domain. -/
def F64.add : F64 → F64 → F64
  | F64.nan, _ => F64.nan
  | _, F64.nan => F64.nan
  | F64.pinf, F64.ninf => F64.nan
  | F64.ninf, F64.pinf => F64.nan
  | F64.pinf, _ => F64.pinf
  | _, F64.pinf => F64.pinf
  | F64.ninf, _ => F64.ninf
  | _, F64.ninf => F64.ninf
  | F64.num a, F64.num b => F64.num (a + b)

/-- Division by the constant 6.0 (the only division the chance node does). -/
def F64.div6 : F64 → F64
  | F64.nan => F64.nan
  | F64.pinf => F64.pinf
  | F64.ninf => F64.ninf
  | F64.num a => F64.num (a / 6)

/-- IEEE `>` (false whenever a NaN is involved). -/
def F64.gt : F64 → F64 → Bool
  | F64.num a, F64.num b => decide (b < a)
  | F64.nan, _ => false
  | _, F64.nan => false
  | F64.pinf, F64.pinf => false
  | F64.pinf, _ => true
  | _, F64.pinf => false
  | F64.ninf, _ => false
  | _, F64.ninf => true

/-- `TTEntry`: transposition-table record. -/
structure TTEntry where
  depth : ℕ
  value : F64
deriving DecidableEq

/-- `SearchContext` from the source.  The `HashMap` is a key-indexed map
plus an explicit size counter (`HashMap::len`); `js_sys::Date::now()` and
`js_sys::Math::random()` are oracle streams read at an advancing index. -/
structure SearchContext where
  tt : ℕ → Option TTEntry
  ttSize : ℕ
  nodes_explored : ℕ
  max_nodes : ℕ
  start_time : ℚ
  time_budget_ms : ℚ
  aborted : Bool
  use_adversarial : Bool
  rng : ℕ → ℚ
  rngIdx : ℕ
  clock : ℕ → ℚ
  clockIdx : ℕ

/-- `SearchContext::new` (the host capability oracles are injected). -/
def SearchContext.new (rng clock : ℕ → ℚ) : SearchContext :=
  { tt := fun _ => none
    ttSize := 0
    nodes_explored := 0
    max_nodes := 500000
    start_time := 0
    time_budget_ms := 0
    aborted := false
    use_adversarial := false
    rng := rng
    rngIdx := 0
    clock := clock
    clockIdx := 0 }

/-- `SearchContext::clear`. -/
def SearchContext.clear (c : SearchContext) : SearchContext :=
  { c with tt := fun _ => none, ttSize := 0, nodes_explored := 0, aborted := false }

/-- One `js_sys::Math::random()` call. -/
def nextRand (c : SearchContext) : ℚ × SearchContext :=
  (c.rng c.rngIdx, { c with rngIdx := c.rngIdx + 1 })

/-- One `js_sys::Date::now()` call. -/
def nextClock (c : SearchContext) : ℚ × SearchContext :=
  (c.clock c.clockIdx, { c with clockIdx := c.clockIdx + 1 })

/-- `SearchContext::should_abort`: sticky abort flag, disabled when no
time budget, wall clock polled only every 1000 explored nodes. -/
def shouldAbort (c : SearchContext) : Bool × SearchContext :=
  if c.aborted then (true, c)
  else if c.time_budget_ms ≤ 0 then (false, c)
  else if c.nodes_explored % 1000 = 0 then
    let t := nextClock c
    if t.1 - c.start_time ≥ c.time_budget_ms then (true, { t.2 with aborted := true })
    else (false, t.2)
  else (false, c)

/-- Insert into the transposition table, but only while it holds fewer
than 100000 entries (`HashMap::insert`: the length grows only on a fresh
key). -/
def ttInsert (c : SearchContext) (h depth : ℕ) (v : F64) : SearchContext :=
  if c.ttSize < 100000 then
    { c with tt := fun x => if x = h then some ⟨depth, v⟩ else c.tt x,
             ttSize := if (c.tt h).isNone then c.ttSize + 1 else c.ttSize }
  else c

/-- Wrapping 64-bit arithmetic. -/
def wrap64 (n : ℕ) : ℕ := n % 2 ^ 64

/-- One `hash.wrapping_mul(31).wrapping_add(x)` step. -/
def hashMix (h x : ℕ) : ℕ := wrap64 (wrap64 (h * 31) + x)

/-- Enum discriminant of `Player` (`Player1 = 0`, `Player2 = 1`). -/
def playerIdx : Player → ℕ
  | Player.Player1 => 0
  | Player.Player2 => 1

/-- `hash_state`: fold the two grids cell-interleaved, then player, die,
depth and the max/min marker. -/
def hash_state (s : GameState) (depth : ℕ) (is_max : Bool) : ℕ :=
  let h := (List.finRange 9).foldl
    (fun h i => hashMix (hashMix h (s.grid1.data i)) (s.grid2.data i)) 0
  let h := hashMix h (playerIdx s.current_player)
  let h := hashMix h (s.current_die.getD 0)
  let h := hashMix h depth
  hashMix h (if is_max then 1 else 0)

/-- Columns of a grid that are not full (the legal moves). -/
def legalColumns (g : Grid) : List ℕ :=
  (List.range 3).filter fun col => ! g.isColumnFull col

/-- `order_moves`: stable descending sort of the columns by
`evaluate_move_quick` (the quick scores are never NaN, so the source's
`partial_cmp … unwrap_or(Equal)` is the plain order). -/
def order_moves (s : GameState) (columns : List ℕ) (player : Player) : List ℕ :=
  match s.current_die with
  | some die_value =>
    let scored := columns.map fun col => (col, evaluate_move_quick s col die_value player)
    (scored.mergeSort fun a b => decide (b.2 ≤ a.2)).map Prod.fst
  | none => columns

/-- Rust `as usize` on an `f64`: saturating toward 0 below (the
`usize::MAX` cap is unreachable at these magnitudes). -/
def ratToUsize (q : ℚ) : ℕ := if q < 0 then 0 else (⌊q⌋).toNat

/-- The grid belonging to a player (the `match player` the source repeats
at each use site). -/
def playerGrid (s : GameState) (player : Player) : Grid :=
  match player with
  | Player.Player1 => s.grid1
  | Player.Player2 => s.grid2

mutual

/-- `max_node`: searching player to move; evaluate on budget
exhaustion/abort/terminal/depth 0, delegate Rolling states to the chance
node, consult and fill the transposition table, and take the maximum over
the ordered legal moves. -/
def max_node (s : GameState) (depth : ℕ) (player : Player)
    (player_config opponent_config : DifficultyConfig) (c : SearchContext) :
    F64 × SearchContext :=
  let c1 := { c with nodes_explored := c.nodes_explored + 1 }
  if c1.nodes_explored > c1.max_nodes then
    (F64.num (evaluate s player player_config), c1)
  else
    let ab := shouldAbort c1
    if hg : ab.1 = true ∨ s.phase = GamePhase.Ended ∨ depth = 0 then
      (F64.num (evaluate s player player_config), ab.2)
    else if hr : s.phase = GamePhase.Rolling then
      chance_node s depth player player_config opponent_config ab.2
    else
      let hsh := hash_state s depth true
      let cached : Option F64 := match ab.2.tt hsh with
        | some e => if depth ≤ e.depth then some e.value else none
        | none => none
      match cached with
      | some v => (v, ab.2)
      | none =>
        let grid := match s.current_player with
          | Player.Player1 => s.grid1
          | Player.Player2 => s.grid2
        let legal := legalColumns grid
        if legal.isEmpty then (F64.num (evaluate s player player_config), ab.2)
        else
          let ordered := order_moves s legal player
          let res := ordered.foldl (fun (acc : F64 × SearchContext) col =>
            match apply_move s col with
            | none => acc
            | some ns =>
              let vc :=
                if ns.phase = GamePhase.Ended then
                  (F64.num (evaluate ns player player_config), acc.2)
                else if ns.current_player = player then
                  chance_node ns (depth - 1) player player_config opponent_config acc.2
                else
                  min_node ns (depth - 1) player player_config opponent_config acc.2
              (F64.fmax acc.1 vc.1, vc.2)) (F64.ninf, ab.2)
          (res.1, ttInsert res.2 hsh depth res.1)
termination_by depth * 4 + (if s.phase = GamePhase.Rolling then 3 else 0)
decreasing_by
  all_goals
    simp only [not_or] at hg
    obtain ⟨hg1, hg2, hg3⟩ := hg
    split_ifs <;> first | omega | simp_all

/-- `min_node`: opponent to move.  Adversarial mode minimizes over the
ordered moves (with its own transposition entries); modeled mode predicts
the opponent's move from `opponent_config` (greedy at depth 0, random
with probability `randomness`, else a bounded expectimax preview from the
opponent's own perspective) and backs up its value, falling back to true
minimization when no move was determined. -/
def min_node (s : GameState) (depth : ℕ) (player : Player)
    (player_config opponent_config : DifficultyConfig) (c : SearchContext) :
    F64 × SearchContext :=
  let c1 := { c with nodes_explored := c.nodes_explored + 1 }
  if c1.nodes_explored > c1.max_nodes then
    (F64.num (evaluate s player player_config), c1)
  else
    let ab := shouldAbort c1
    if hg : ab.1 = true ∨ s.phase = GamePhase.Ended ∨ depth = 0 then
      (F64.num (evaluate s player player_config), ab.2)
    else if hr : s.phase = GamePhase.Rolling then
      chance_node s depth player player_config opponent_config ab.2
    else
      let grid := match s.current_player with
        | Player.Player1 => s.grid1
        | Player.Player2 => s.grid2
      let legal := legalColumns grid
      if legal.isEmpty then (F64.num (evaluate s player player_config), ab.2)
      else if ab.2.use_adversarial then
        let hsh := hash_state s depth false
        let cached : Option F64 := match ab.2.tt hsh with
          | some e => if depth ≤ e.depth then some e.value else none
          | none => none
        match cached with
        | some v => (v, ab.2)
        | none =>
          let ordered := order_moves s legal s.current_player
          let res := ordered.foldl (fun (acc : F64 × SearchContext) col =>
            match apply_move s col with
            | none => acc
            | some ns =>
              let vc :=
                if ns.phase = GamePhase.Ended then
                  (F64.num (evaluate ns player player_config), acc.2)
                else
                  -- both arms of the source's `current_player == player`
                  -- test call `chance_node` identically here
                  chance_node ns (depth - 1) player player_config opponent_config acc.2
              (F64.fmin acc.1 vc.1, vc.2)) (F64.pinf, ab.2)
          (res.1, ttInsert res.2 hsh depth res.1)
      else
        let opponent := s.current_player
        -- the bounded expectimax preview from the opponent's perspective
        -- (player/opponent configs swapped, depth capped by ours)
        let preview : SearchContext → Option ℕ × SearchContext := fun cx =>
          let opponent_search_depth := min opponent_config.depth depth
          let limited := { opponent_config with depth := opponent_search_depth }
          let ordered := order_moves s legal opponent
          let r := ordered.foldl (fun (acc : Option ℕ × F64 × SearchContext) col =>
            match apply_move s col with
            | none => acc
            | some ns =>
              let vc :=
                if ns.phase = GamePhase.Ended then
                  (F64.num (evaluate ns opponent limited), acc.2.2)
                else
                  chance_node ns (opponent_search_depth - 1) opponent limited
                    player_config acc.2.2
              if F64.gt vc.1 acc.2.1 then (some col, vc.1, vc.2)
              else (acc.1, acc.2.1, vc.2)) (none, F64.ninf, cx)
          (r.1, r.2.2)
        let om : Option ℕ × SearchContext :=
          if opponent_config.depth = 0 then
            match s.current_die with
            | some die_value =>
              let best := legal.foldl (fun (acc : ℕ × F64) col =>
                let score := F64.num (evaluate_move_quick s col die_value opponent)
                if F64.gt score acc.2 then (col, score) else acc)
                (legal.headD 0, F64.ninf)
              (some best.1, ab.2)
            | none => (none, ab.2)
          else if opponent_config.randomness > 0 then
            let r := nextRand ab.2
            if r.1 < opponent_config.randomness then
              let r2 := nextRand r.2
              (some (legal.getD (ratToUsize (r2.1 * legal.length)) 0), r2.2)
            else preview r.2
          else preview ab.2
        -- true-minimization fallback over the legal columns
        let fallback : SearchContext → F64 × SearchContext := fun cy =>
          legal.foldl (fun (acc : F64 × SearchContext) col =>
            match apply_move s col with
            | none => acc
            | some ns =>
              let vc :=
                if ns.phase = GamePhase.Ended then
                  (F64.num (evaluate ns player player_config), acc.2)
                else
                  -- both arms of the source's test call `chance_node`
                  chance_node ns (depth - 1) player player_config opponent_config acc.2
              (F64.fmin acc.1 vc.1, vc.2)) (F64.pinf, cy)
        match om.1 with
        | some opp_col =>
          match apply_move s opp_col with
          | some ns =>
            if ns.phase = GamePhase.Ended then
              (F64.num (evaluate ns player player_config), om.2)
            else
              -- both arms of the source's test call `chance_node`
              chance_node ns (depth - 1) player player_config opponent_config om.2
          | none => fallback om.2
        | none => fallback om.2
termination_by depth * 4 + (if s.phase = GamePhase.Rolling then 3 else 0)
decreasing_by
  all_goals
    simp only [not_or] at hg
    obtain ⟨hg1, hg2, hg3⟩ := hg
    split_ifs <;> first | omega | simp_all

/-- `chance_node`: branch uniformly over the six die faces in the Rolling
phase (summing `value / 6`), otherwise a transparent pass-through to the
max or min node for whoever is to move. -/
def chance_node (s : GameState) (depth : ℕ) (player : Player)
    (player_config opponent_config : DifficultyConfig) (c : SearchContext) :
    F64 × SearchContext :=
  let c1 := { c with nodes_explored := c.nodes_explored + 1 }
  if c1.nodes_explored > c1.max_nodes then
    (F64.num (evaluate s player player_config), c1)
  else
    let ab := shouldAbort c1
    if ab.1 then (F64.num (evaluate s player player_config), ab.2)
    else if hr : s.phase = GamePhase.Rolling then
      ([1, 2, 3, 4, 5, 6] : List ℕ).foldl (fun (acc : F64 × SearchContext) die_value =>
        let rolled := roll_die s die_value
        let vc :=
          if rolled.current_player = player then
            max_node rolled depth player player_config opponent_config acc.2
          else
            min_node rolled depth player player_config opponent_config acc.2
        (F64.add acc.1 (F64.div6 vc.1), vc.2)) (F64.num 0, ab.2)
    else
      if s.current_player = player then
        max_node s depth player player_config opponent_config ab.2
      else
        min_node s depth player player_config opponent_config ab.2
termination_by depth * 4 + (if s.phase = GamePhase.Rolling then 2 else 1)
decreasing_by
  all_goals
    split_ifs <;> first | omega | simp_all [roll_die]

end

/-- The `for col in ordered` loop of `expectimax_internal`, with its
per-iteration `should_abort` break. -/
def expectimaxLoop (s : GameState) (player : Player)
    (player_config opponent_config : DifficultyConfig) :
    List ℕ → (Option ℕ × F64 × SearchContext) → Option ℕ × F64 × SearchContext
  | [], acc => acc
  | col :: rest, acc =>
    let ab := shouldAbort acc.2.2
    if ab.1 then (acc.1, acc.2.1, ab.2)
    else
      match apply_move s col with
      | none => expectimaxLoop s player player_config opponent_config rest
          (acc.1, acc.2.1, ab.2)
      | some ns =>
        let vc :=
          if ns.phase = GamePhase.Ended then
            (F64.num (evaluate ns player player_config), ab.2)
          else
            chance_node ns (player_config.depth - 1) player player_config
              opponent_config ab.2
        if F64.gt vc.1 acc.2.1 then
          expectimaxLoop s player player_config opponent_config rest (some col, vc.1, vc.2)
        else
          expectimaxLoop s player player_config opponent_config rest (acc.1, acc.2.1, vc.2)

/-- `expectimax_internal`: top-level fixed-depth search returning the best
column and its value; short-circuits on wrong phase / missing die, no
legal column, or a single legal column. -/
def expectimax_internal (s : GameState) (player : Player)
    (player_config opponent_config : DifficultyConfig) (c : SearchContext) :
    Option ℕ × F64 × SearchContext :=
  if s.phase ≠ GamePhase.Placing ∨ s.current_die = none then (none, F64.num 0, c)
  else
    let legal := legalColumns (playerGrid s player)
    if legal.isEmpty then (none, F64.num 0, c)
    else if legal.length = 1 then (some (legal.headD 0), F64.num 0, c)
    else
      let ordered := order_moves s legal player
      expectimaxLoop s player player_config opponent_config ordered (none, F64.ninf, c)

/-- The `for depth in 1..=max` loop of `iterative_deepening`: per-depth
80%-budget precheck, fresh abort flag, keep the deepest completed
result, break on abort. -/
def deepenLoop (s : GameState) (player : Player)
    (player_config opponent_config : DifficultyConfig) (start : ℚ) :
    List ℕ → (Option ℕ × F64 × ℕ) → SearchContext →
      Option ℕ × F64 × ℕ × SearchContext
  | [], acc, ctx => (acc.1, acc.2.1, acc.2.2, ctx)
  | d :: rest, acc, ctx =>
    let t := nextClock ctx
    if t.1 - start ≥ player_config.time_budget_ms * (4 / 5) then
      (acc.1, acc.2.1, acc.2.2, t.2)
    else
      let depth_config := { player_config with depth := d }
      let c2 := { t.2 with
                  start_time := start,
                  time_budget_ms := player_config.time_budget_ms,
                  aborted := false }
      let r := expectimax_internal s player depth_config opponent_config c2
      let acc2 := if r.2.2.aborted then acc
        else match r.1 with
          | some m => (some m, r.2.1, d)
          | none => acc
      if r.2.2.aborted then (acc2.1, acc2.2.1, acc2.2.2, r.2.2)
      else deepenLoop s player player_config opponent_config start rest acc2 r.2.2

/-- `iterative_deepening`: deepening 1..=configured depth under the time
budget. -/
def iterative_deepening (s : GameState) (player : Player)
    (player_config opponent_config : DifficultyConfig) (c : SearchContext) :
    Option ℕ × F64 × ℕ × SearchContext :=
  let t := nextClock c
  deepenLoop s player player_config opponent_config t.1
    (List.range' 1 player_config.depth) (none, F64.ninf, 0) t.2

/-- Decode the host-provided flat arrays and scalars into a `GameState`
(the copy-and-pad prologue shared by the engine entry points). -/
def decodeState (grid1 grid2 : List ℕ) (current_player current_die : ℕ) : GameState :=
  { grid1 := gridOfList grid1
    grid2 := gridOfList grid2
    current_player := if current_player = 0 then Player.Player1 else Player.Player2
    current_die := if current_die = 0 then none else some current_die
    phase := if current_die = 0 then GamePhase.Rolling else GamePhase.Placing
    turn_number := 1 }

/-- The tail of `get_best_move_extended` after the randomness draw
(factored out of the source's single function for the embedding): greedy
argmax of `evaluate_move_quick` at depth 0, otherwise configure the
context and run the fixed-depth or time-budgeted search, falling back to
the first legal column. -/
def bestMoveAfterRandom (state : GameState) (player : Player) (legal : List ℕ)
    (depth : ℕ) (randomness offense_weight defense_weight : ℚ)
    (advanced_eval adversarial : Bool) (time_budget_ms : ℚ)
    (opponent_depth : ℕ)
    (opponent_randomness opponent_offense_weight opponent_defense_weight : ℚ)
    (opponent_advanced_eval opponent_adversarial : Bool)
    (opponent_time_budget_ms : ℚ) (cx : SearchContext) : ℤ × SearchContext :=
  if depth = 0 then
    let die_value := state.current_die.getD 0
    let best := legal.foldl (fun (acc : ℕ × F64) col =>
      let score := F64.num (evaluate_move_quick state col die_value player)
      if F64.gt score acc.2 then (col, score) else acc)
      (legal.headD 0, F64.ninf)
    ((best.1 : ℤ), cx)
  else
    let player_config : DifficultyConfig :=
      { depth := depth, randomness := randomness,
        offense_weight := offense_weight, defense_weight := defense_weight,
        advanced_eval := advanced_eval, adversarial := adversarial,
        time_budget_ms := time_budget_ms }
    let opponent_config : DifficultyConfig :=
      { depth := opponent_depth, randomness := opponent_randomness,
        offense_weight := opponent_offense_weight,
        defense_weight := opponent_defense_weight,
        advanced_eval := opponent_advanced_eval,
        adversarial := opponent_adversarial,
        time_budget_ms := opponent_time_budget_ms }
    let t := nextClock cx
    let c2 := { t.2 with
                use_adversarial := adversarial,
                start_time := t.1,
                time_budget_ms := time_budget_ms,
                aborted := false }
    if time_budget_ms > 0 then
      let r := iterative_deepening state player player_config opponent_config c2
      (match r.1 with
       | some col => (col : ℤ)
       | none => (legal.headD 0 : ℤ), r.2.2.2)
    else
      let r := expectimax_internal state player player_config opponent_config c2
      (match r.1 with
       | some col => (col : ℤ)
       | none => (legal.headD 0 : ℤ), r.2.2)

/-- `AIEngine::get_best_move_extended`: decode, sentinel −1 on wrong
phase / no die / no legal column, single-column shortcut, randomness
draw, then `bestMoveAfterRandom`.  Returns the chosen value together
with the engine's search context. -/
def AIEngine.get_best_move_extended (c : SearchContext) (grid1 grid2 : List ℕ)
    (current_player current_die : ℕ) (depth : ℕ)
    (randomness offense_weight defense_weight : ℚ)
    (advanced_eval adversarial : Bool) (time_budget_ms : ℚ)
    (opponent_depth : ℕ)
    (opponent_randomness opponent_offense_weight opponent_defense_weight : ℚ)
    (opponent_advanced_eval opponent_adversarial : Bool)
    (opponent_time_budget_ms : ℚ) : ℤ × SearchContext :=
  let state := decodeState grid1 grid2 current_player current_die
  if state.phase ≠ GamePhase.Placing ∨ state.current_die = none then (-1, c)
  else
    let player := state.current_player
    let legal := legalColumns (playerGrid state player)
    if legal.isEmpty then (-1, c)
    else if legal.length = 1 then ((legal.headD 0 : ℤ), c)
    else
      let afterRandom : SearchContext → ℤ × SearchContext := fun cx =>
        bestMoveAfterRandom state player legal depth randomness offense_weight
          defense_weight advanced_eval adversarial time_budget_ms opponent_depth
          opponent_randomness opponent_offense_weight opponent_defense_weight
          opponent_advanced_eval opponent_adversarial opponent_time_budget_ms cx
      if randomness > 0 then
        let r := nextRand c
        if r.1 < randomness then
          let r2 := nextRand r.2
          ((legal.getD (ratToUsize (r2.1 * legal.length)) 0 : ℤ), r2.2)
        else afterRandom r.2
      else afterRandom c

/-- Saturating `u32` addition (`saturating_add` in the source). -/
def satAdd (a b : ℕ) : ℕ := min (a + b) (2 ^ 32 - 1)

/-- `OpponentProfile` counters. -/
structure OpponentProfile where
  column_usage : Fin 3 → ℕ
  total_moves : ℕ
  attack_moves : ℕ
  high_dice_placements : Fin 3 → ℕ
  low_dice_placements : Fin 3 → ℕ
  score_lost_to_attacks : ℕ
  games_completed : ℕ

/-- `OpponentProfile::new`: all counters zero. -/
def OpponentProfile.new : OpponentProfile :=
  { column_usage := fun _ => 0
    total_moves := 0
    attack_moves := 0
    high_dice_placements := fun _ => 0
    low_dice_placements := fun _ => 0
    score_lost_to_attacks := 0
    games_completed := 0 }

/-- `OpponentProfile::record_move`: silently ignore out-of-range
arguments, otherwise bump the affected counters with saturating
addition. -/
def OpponentProfile.record_move (p : OpponentProfile)
    (col die_value removed_count score_lost : ℕ) : OpponentProfile :=
  if h : col > 2 ∨ die_value = 0 ∨ die_value > 6 then p
  else
    let ci : Fin 3 := ⟨col, by omega⟩
    let p1 := { p with
                column_usage :=
                  Function.update p.column_usage ci (satAdd (p.column_usage ci) 1),
                total_moves := satAdd p.total_moves 1 }
    let p2 :=
      if removed_count > 0 then
        { p1 with
          attack_moves := satAdd p1.attack_moves 1,
          score_lost_to_attacks := satAdd p1.score_lost_to_attacks score_lost }
      else p1
    if die_value ≥ 5 then
      { p2 with high_dice_placements :=
          Function.update p2.high_dice_placements ci (satAdd (p2.high_dice_placements ci) 1) }
    else if die_value ≤ 2 then
      { p2 with low_dice_placements :=
          Function.update p2.low_dice_placements ci (satAdd (p2.low_dice_placements ci) 1) }
    else p2

/-- `OpponentProfile::end_game`. -/
def OpponentProfile.end_game (p : OpponentProfile) : OpponentProfile :=
  { p with games_completed := satAdd p.games_completed 1 }

/-- `OpponentProfile::get_attack_rate` (0 when no move recorded). -/
def OpponentProfile.get_attack_rate (p : OpponentProfile) : ℚ :=
  if p.total_moves = 0 then 0
  else (p.attack_moves : ℚ) / (p.total_moves : ℚ)

/-- `UNIFORM_COLUMN_FREQUENCY` (the source's literal `0.333`). -/
def UNIFORM_COLUMN_FREQUENCY : ℚ := 333 / 1000

/-- `OpponentProfile::get_column_frequency`: 0 for an out-of-range
column, the uniform default with no data, else the observed share. -/
def OpponentProfile.get_column_frequency (p : OpponentProfile) (col : ℕ) : ℚ :=
  if h : col > 2 then 0
  else if p.total_moves = 0 then UNIFORM_COLUMN_FREQUENCY
  else (p.column_usage ⟨col, by omega⟩ : ℚ) / (p.total_moves : ℚ)

/-- `OpponentProfile::get_adaptive_config`: depth-5 50/50 default; with
≥3 games and ≥10 moves, rebalance by attack rate (aggressive > 0.4 ⇒
defense `clamp(0.6 + (rate − 0.4)·0.5, 0, 1)`, passive < 0.2 ⇒ 70/30).
The source's `f64` literals 0.4, 0.2, 0.6, 0.5 are carried as exact
rationals; every comparison the claims touch is far from the rounding
error of those literals. -/
def OpponentProfile.get_adaptive_config (p : OpponentProfile) : DifficultyConfig :=
  let config : DifficultyConfig :=
    { depth := 5, randomness := 0, offense_weight := 1 / 2, defense_weight := 1 / 2,
      advanced_eval := true, adversarial := true, time_budget_ms := 100 }
  if p.games_completed < 3 ∨ p.total_moves < 10 then config
  else
    let attack_rate := p.get_attack_rate
    if attack_rate > 2 / 5 then
      let dw := min (max ((3 / 5) + (attack_rate - 2 / 5) * (1 / 2)) 0) 1
      { config with defense_weight := dw, offense_weight := 1 - dw }
    else if attack_rate < 1 / 5 then
      { config with offense_weight := 7 / 10, defense_weight := 3 / 10 }
    else config

/-- `STATE_ENCODING_SIZE` (43 features). -/
def STATE_ENCODING_SIZE : ℕ := 43

/-- `HIDDEN_SIZE` (128 hidden units). -/
def HIDDEN_SIZE : ℕ := 128

/-- `POLICY_OUTPUT_SIZE` (3 columns). -/
def POLICY_OUTPUT_SIZE : ℕ := 3

/-- `PolicyValueNetwork` weights (flat row-major vectors, as in the
source). -/
structure PolicyValueNetwork where
  w1 : List ℚ
  b1 : List ℚ
  w_policy : List ℚ
  b_policy : List ℚ
  w_value : List ℚ
  b_value : ℚ
  initialized : Bool

/-- `PolicyValueNetwork::new`: random initial weights of the canonical
sizes, `initialized = false`.  The Xavier scale factors involve `sqrt`
(irrational), so they are abstract parameters here; no claim depends on
the initial values. -/
def PolicyValueNetwork.new (rand : ℕ → ℚ) (scale1 scale_policy scale_value : ℚ) :
    PolicyValueNetwork :=
  { w1 := (List.range (HIDDEN_SIZE * STATE_ENCODING_SIZE)).map
      fun i => (rand i - 1 / 2) * 2 * scale1
    b1 := List.replicate HIDDEN_SIZE 0
    w_policy := (List.range (POLICY_OUTPUT_SIZE * HIDDEN_SIZE)).map
      fun i => (rand (HIDDEN_SIZE * STATE_ENCODING_SIZE + i) - 1 / 2) * 2 * scale_policy
    b_policy := List.replicate POLICY_OUTPUT_SIZE 0
    w_value := (List.range HIDDEN_SIZE).map
      fun i => (rand (HIDDEN_SIZE * STATE_ENCODING_SIZE
        + POLICY_OUTPUT_SIZE * HIDDEN_SIZE + i) - 1 / 2) * 2 * scale_value
    b_value := 0
    initialized := false }

/-- The exact flat parameter count `load_weights` validates against. -/
def expected_size : ℕ :=
  HIDDEN_SIZE * STATE_ENCODING_SIZE + HIDDEN_SIZE
    + POLICY_OUTPUT_SIZE * HIDDEN_SIZE + POLICY_OUTPUT_SIZE + HIDDEN_SIZE + 1

/-- `PolicyValueNetwork::load_weights`: reject (no mutation) on any
length other than `expected_size`; otherwise copy the flat vector into
the weight fields in order, each field taking its own current length
(canonically 128·43, 128, 3·128, 3, 128, 1), and set `initialized`. -/
def PolicyValueNetwork.load_weights (n : PolicyValueNetwork) (weights : List ℚ) :
    PolicyValueNetwork × Bool :=
  if weights.length ≠ expected_size then (n, false)
  else
    let i1 := n.w1.length
    let i2 := i1 + n.b1.length
    let i3 := i2 + n.w_policy.length
    let i4 := i3 + n.b_policy.length
    let i5 := i4 + n.w_value.length
    ({ w1 := weights.take n.w1.length
       b1 := (weights.drop i1).take n.b1.length
       w_policy := (weights.drop i2).take n.w_policy.length
       b_policy := (weights.drop i3).take n.b_policy.length
       w_value := (weights.drop i4).take n.w_value.length
       b_value := (weights.drop i5).headD 0
       initialized := true }, true)

/-- `PolicyValueNetwork::is_initialized`. -/
def PolicyValueNetwork.is_initialized (n : PolicyValueNetwork) : Bool :=
  n.initialized

/-! ### Profile events and counter facts -/

/-- One observable profile mutation: a `record_move` call or an
`end_game` call. -/
inductive ProfEvent where
  | move (col die_value removed_count score_lost : ℕ)
  | finish
deriving DecidableEq

/-- Apply one profile event. -/
def applyEvent (p : OpponentProfile) : ProfEvent → OpponentProfile
  | ProfEvent.move c d r sl => p.record_move c d r sl
  | ProfEvent.finish => p.end_game

/-- Run a whole event history from a fresh profile. -/
def runProfile (evts : List ProfEvent) : OpponentProfile :=
  evts.foldl applyEvent OpponentProfile.new

/-- An event that records a valid, attacking move (in-range column and
face, at least one die removed), or a game end. -/
def ProfEvent.validAttack : ProfEvent → Prop
  | ProfEvent.move c d r _ => c ≤ 2 ∧ 1 ≤ d ∧ d ≤ 6 ∧ 0 < r
  | ProfEvent.finish => True

/-- Whether an event is a `record_move` call. -/
def ProfEvent.isMove : ProfEvent → Bool
  | ProfEvent.move _ _ _ _ => true
  | ProfEvent.finish => false

instance : ∀ e : ProfEvent, Decidable e.validAttack
  | ProfEvent.move c d r _ =>
    inferInstanceAs (Decidable (c ≤ 2 ∧ 1 ≤ d ∧ d ≤ 6 ∧ 0 < r))
  | ProfEvent.finish => inferInstanceAs (Decidable True)

/-- `u32::MAX`, the saturation bound of the profile counters. -/
def U32MAX : ℕ := 2 ^ 32 - 1

/-- All profile counters within the `u32` range (true of every profile
the source can represent). -/
def profileWF (p : OpponentProfile) : Prop :=
  (∀ i, p.column_usage i ≤ U32MAX) ∧ p.total_moves ≤ U32MAX ∧
    p.attack_moves ≤ U32MAX ∧ (∀ i, p.high_dice_placements i ≤ U32MAX) ∧
    (∀ i, p.low_dice_placements i ≤ U32MAX) ∧
    p.score_lost_to_attacks ≤ U32MAX ∧ p.games_completed ≤ U32MAX

/-- Pointwise order on the profile counters. -/
def profileLE (p q : OpponentProfile) : Prop :=
  (∀ i, p.column_usage i ≤ q.column_usage i) ∧ p.total_moves ≤ q.total_moves ∧
    p.attack_moves ≤ q.attack_moves ∧
    (∀ i, p.high_dice_placements i ≤ q.high_dice_placements i) ∧
    (∀ i, p.low_dice_placements i ≤ q.low_dice_placements i) ∧
    p.score_lost_to_attacks ≤ q.score_lost_to_attacks ∧
    p.games_completed ≤ q.games_completed

lemma le_satAdd {a : ℕ} (b : ℕ) (h : a ≤ U32MAX) : a ≤ satAdd a b := by
  simp only [satAdd, U32MAX] at h ⊢
  omega

lemma satAdd_le_max (a b : ℕ) : satAdd a b ≤ U32MAX := by
  unfold satAdd U32MAX
  omega

lemma satAdd_min_chain (a k : ℕ) (h : a ≤ U32MAX) :
    min (satAdd a 1 + k) U32MAX = min (a + (k + 1)) U32MAX := by
  simp only [satAdd, U32MAX] at h ⊢
  omega

/-- `record_move` on an always-attacking history keeps
`attack_moves = total_moves` and tracks the saturated move count. -/
lemma runProfile_attack_counts :
    ∀ (evts : List ProfEvent) (p : OpponentProfile),
      (∀ e ∈ evts, e.validAttack) →
      p.attack_moves = p.total_moves → p.total_moves ≤ U32MAX →
      p.games_completed ≤ U32MAX →
      (evts.foldl applyEvent p).attack_moves = (evts.foldl applyEvent p).total_moves ∧
      (evts.foldl applyEvent p).total_moves
        = min (p.total_moves + (evts.filter ProfEvent.isMove).length) U32MAX ∧
      (evts.foldl applyEvent p).games_completed
        = min (p.games_completed + (evts.filter (fun e => ! e.isMove)).length) U32MAX := by
  intro evts
  induction evts with
  | nil =>
    intro p _ hat htot hg
    refine ⟨hat, ?_, ?_⟩
    · simp [Nat.min_eq_left htot]
    · simp [Nat.min_eq_left hg]
  | cons e rest ih =>
    intro p hv hat htot hg
    have hve : e.validAttack := hv e (List.mem_cons_self e rest)
    have hvr : ∀ x ∈ rest, x.validAttack := fun x hx => hv x (List.mem_cons_of_mem e hx)
    cases e with
    | move c d r sl =>
      obtain ⟨hc, hd1, hd6, hr⟩ := hve
      have hnot : ¬ (c > 2 ∨ d = 0 ∨ d > 6) := by omega
      have happ : applyEvent p (ProfEvent.move c d r sl)
          = (p.record_move c d r sl) := rfl
      have hq : (p.record_move c d r sl).attack_moves = satAdd p.attack_moves 1 ∧
          (p.record_move c d r sl).total_moves = satAdd p.total_moves 1 ∧
          (p.record_move c d r sl).games_completed = p.games_completed := by
        unfold OpponentProfile.record_move
        rw [dif_neg hnot]
        simp only [hr, if_pos hr]
        split_ifs <;> simp
      obtain ⟨hqa, hqt, hqg⟩ := hq
      have hmlen : ((ProfEvent.move c d r sl :: rest).filter ProfEvent.isMove).length
          = (rest.filter ProfEvent.isMove).length + 1 := by
        simp [ProfEvent.isMove]
      have hglen : ((ProfEvent.move c d r sl :: rest).filter
            (fun e => ! e.isMove)).length
          = (rest.filter (fun e => ! e.isMove)).length := by
        simp [ProfEvent.isMove]
      have hrec := ih (p.record_move c d r sl) hvr
        (by rw [hqa, hqt, hat]) (by rw [hqt]; exact satAdd_le_max _ _)
        (by rw [hqg]; exact hg)
      simp only [List.foldl_cons, happ]
      refine ⟨hrec.1, ?_, ?_⟩
      · rw [hrec.2.1, hqt, hmlen]
        exact satAdd_min_chain _ _ htot
      · rw [hrec.2.2, hqg, hglen]
    | finish =>
      have happ : applyEvent p ProfEvent.finish = p.end_game := rfl
      have hqa : p.end_game.attack_moves = p.attack_moves := rfl
      have hqt : p.end_game.total_moves = p.total_moves := rfl
      have hqg : p.end_game.games_completed = satAdd p.games_completed 1 := rfl
      have hmlen : ((ProfEvent.finish :: rest).filter ProfEvent.isMove).length
          = (rest.filter ProfEvent.isMove).length := by
        simp [ProfEvent.isMove]
      have hglen : ((ProfEvent.finish :: rest).filter (fun e => ! e.isMove)).length
          = (rest.filter (fun e => ! e.isMove)).length + 1 := by
        simp [ProfEvent.isMove]
      have hrec := ih p.end_game hvr (by rw [hqa, hqt]; exact hat)
        (by rw [hqt]; exact htot) (by rw [hqg]; exact satAdd_le_max _ _)
      simp only [List.foldl_cons, happ]
      refine ⟨hrec.1, ?_, ?_⟩
      · rw [hrec.2.1, hqt, hmlen]
      · rw [hrec.2.2, hqg, hglen]
        exact satAdd_min_chain _ _ hg

lemma update_counter_le (f : Fin 3 → ℕ) (ci : Fin 3) (hb : ∀ i, f i ≤ U32MAX) :
    ∀ i, f i ≤ Function.update f ci (satAdd (f ci) 1) i := by
  intro i
  by_cases h : i = ci
  · subst h
    rw [Function.update_same]
    exact le_satAdd 1 (hb i)
  · rw [Function.update_noteq h]

/-! ### Claim theorems: opponent profile and network -/

/-- C8: `record_move` with an out-of-range column or face leaves the
profile completely unchanged; a valid call bumps each affected counter by
saturating addition; and no counter ever decreases under `record_move` or
`end_game`. -/
theorem record_move_spec (p : OpponentProfile)
    (col die_value removed_count score_lost : ℕ) (hwf : profileWF p) :
    (col > 2 ∨ die_value = 0 ∨ die_value > 6 →
      p.record_move col die_value removed_count score_lost = p) ∧
    (∀ hc : col < 3, 1 ≤ die_value → die_value ≤ 6 →
      ((p.record_move col die_value removed_count score_lost).column_usage ⟨col, hc⟩
          = satAdd (p.column_usage ⟨col, hc⟩) 1 ∧
        (p.record_move col die_value removed_count score_lost).total_moves
          = satAdd p.total_moves 1 ∧
        (0 < removed_count →
          (p.record_move col die_value removed_count score_lost).attack_moves
              = satAdd p.attack_moves 1 ∧
            (p.record_move col die_value removed_count score_lost).score_lost_to_attacks
              = satAdd p.score_lost_to_attacks score_lost) ∧
        (5 ≤ die_value →
          (p.record_move col die_value removed_count score_lost).high_dice_placements
              ⟨col, hc⟩
            = satAdd (p.high_dice_placements ⟨col, hc⟩) 1) ∧
        (die_value ≤ 2 →
          (p.record_move col die_value removed_count score_lost).low_dice_placements
              ⟨col, hc⟩
            = satAdd (p.low_dice_placements ⟨col, hc⟩) 1))) ∧
    profileLE p (p.record_move col die_value removed_count score_lost) ∧
    profileLE p p.end_game := by
  obtain ⟨hw1, hw2, hw3, hw4, hw5, hw6, hw7⟩ := hwf
  refine ⟨?_, ?_, ?_, ?_⟩
  · intro h
    unfold OpponentProfile.record_move
    rw [dif_pos h]
  · intro hc h1 h6
    have hnot : ¬ (col > 2 ∨ die_value = 0 ∨ die_value > 6) := by omega
    unfold OpponentProfile.record_move
    rw [dif_neg hnot]
    refine ⟨?_, ?_, ?_, ?_, ?_⟩
    · split_ifs <;> simp [Function.update_apply]
    · split_ifs <;> rfl
    · intro hrm
      split_ifs <;> first | exact ⟨rfl, rfl⟩ | omega
    · intro h5
      split_ifs <;> first | omega | simp [Function.update_apply]
    · intro h2
      split_ifs <;> first | omega | simp [Function.update_apply]
  · unfold OpponentProfile.record_move
    by_cases h : col > 2 ∨ die_value = 0 ∨ die_value > 6
    · rw [dif_pos h]
      exact ⟨fun i => le_refl _, le_refl _, le_refl _, fun i => le_refl _,
        fun i => le_refl _, le_refl _, le_refl _⟩
    · rw [dif_neg h]
      split_ifs <;>
        refine ⟨fun i => ?_, ?_, ?_, fun i => ?_, fun i => ?_, ?_, ?_⟩ <;>
        first
          | exact update_counter_le _ _ hw1 i
          | exact update_counter_le _ _ hw4 i
          | exact update_counter_le _ _ hw5 i
          | exact le_satAdd _ hw2
          | exact le_satAdd _ hw3
          | exact le_satAdd _ hw6
          | exact le_refl _
  · exact ⟨fun i => le_refl _, le_refl _, le_refl _, fun i => le_refl _,
      fun i => le_refl _, le_refl _, le_satAdd _ hw7⟩

theorem record_move_spec_witness :
    profileLE OpponentProfile.new (OpponentProfile.new.record_move 1 5 1 2) ∧
      OpponentProfile.new.record_move 9 5 1 2 = OpponentProfile.new :=
  ⟨(record_move_spec OpponentProfile.new 1 5 1 2
      ⟨fun _ => by simp [OpponentProfile.new], by simp [OpponentProfile.new],
        by simp [OpponentProfile.new], fun _ => by simp [OpponentProfile.new],
        fun _ => by simp [OpponentProfile.new], by simp [OpponentProfile.new],
        by simp [OpponentProfile.new]⟩).2.2.1,
    (record_move_spec OpponentProfile.new 9 5 1 2
      ⟨fun _ => by simp [OpponentProfile.new], by simp [OpponentProfile.new],
        by simp [OpponentProfile.new], fun _ => by simp [OpponentProfile.new],
        fun _ => by simp [OpponentProfile.new], by simp [OpponentProfile.new],
        by simp [OpponentProfile.new]⟩).1 (by omega)⟩

/-- C9: a profile built from ≥10 valid always-attacking recorded moves
and ≥3 game ends has attack rate above 0.4 and an adaptive config with
defense weight above 0.5 (offense = 1 − defense); with fewer than 3
games or fewer than 10 moves the 50/50 depth-5 default is returned. -/
theorem adaptive_config_spec (evts : List ProfEvent)
    (hv : ∀ e ∈ evts, e.validAttack)
    (hm : 10 ≤ (evts.filter ProfEvent.isMove).length)
    (hg : 3 ≤ (evts.filter (fun e => ! e.isMove)).length) :
    (2 : ℚ) / 5 < (runProfile evts).get_attack_rate ∧
    (runProfile evts).get_adaptive_config.defense_weight > 1 / 2 ∧
    (runProfile evts).get_adaptive_config.offense_weight
      = 1 - (runProfile evts).get_adaptive_config.defense_weight ∧
    (∀ q : OpponentProfile, q.games_completed < 3 ∨ q.total_moves < 10 →
      q.get_adaptive_config =
        { depth := 5, randomness := 0, offense_weight := 1 / 2,
          defense_weight := 1 / 2, advanced_eval := true, adversarial := true,
          time_budget_ms := 100 }) := by
  obtain ⟨hA, hT, hG⟩ := runProfile_attack_counts evts OpponentProfile.new hv rfl
    (Nat.zero_le _) (Nat.zero_le _)
  have hmax10 : (10 : ℕ) ≤ U32MAX := by unfold U32MAX; omega
  have htot10 : 10 ≤ (runProfile evts).total_moves := by
    unfold runProfile
    rw [hT]
    simp only [OpponentProfile.new, Nat.zero_add]
    omega
  have hgame3 : 3 ≤ (runProfile evts).games_completed := by
    unfold runProfile
    rw [hG]
    simp only [OpponentProfile.new, Nat.zero_add]
    have : (3 : ℕ) ≤ U32MAX := by unfold U32MAX; omega
    omega
  have hAT : (runProfile evts).attack_moves = (runProfile evts).total_moves := hA
  have hrate : (runProfile evts).get_attack_rate = 1 := by
    unfold OpponentProfile.get_attack_rate
    rw [if_neg (by omega), hAT]
    exact div_self (Nat.cast_ne_zero.mpr (by omega))
  have hdw : min (max ((3 : ℚ) / 5 + (1 - 2 / 5) * (1 / 2)) 0) 1 = 9 / 10 := by
    norm_num
  have hcfg : (runProfile evts).get_adaptive_config =
      { depth := 5, randomness := 0, offense_weight := 1 - (9 : ℚ) / 10,
        defense_weight := 9 / 10, advanced_eval := true, adversarial := true,
        time_budget_ms := 100 } := by
    unfold OpponentProfile.get_adaptive_config
    rw [if_neg (by omega), hrate, if_pos (by norm_num : (1 : ℚ) > 2 / 5)]
    rw [hdw]
  refine ⟨by rw [hrate]; norm_num, ?_, ?_, ?_⟩
  · rw [hcfg]; norm_num
  · rw [hcfg]
  · intro q hq
    unfold OpponentProfile.get_adaptive_config
    rw [if_pos hq]

/-- The always-attacking 10-move 3-game history used to witness C9. -/
def c9Events : List ProfEvent :=
  List.replicate 10 (ProfEvent.move 0 5 1 2) ++ List.replicate 3 ProfEvent.finish

theorem adaptive_config_spec_witness :
    (2 : ℚ) / 5 < (runProfile c9Events).get_attack_rate ∧
      (runProfile c9Events).get_adaptive_config.defense_weight > 1 / 2 :=
  ⟨(adaptive_config_spec c9Events (by decide) (by decide) (by decide)).1,
    (adaptive_config_spec c9Events (by decide) (by decide) (by decide)).2.1⟩

/-- C10: the profile read accessors are total with guarded division — a
profile with no recorded move reports attack rate 0 and the uniform 0.333
column frequency for every in-range column, and any out-of-range column
reports frequency 0. -/
theorem profile_accessors_total (p : OpponentProfile) (col : ℕ) :
    (p.total_moves = 0 → p.get_attack_rate = 0) ∧
    (p.total_moves = 0 → col ≤ 2 → p.get_column_frequency col = 333 / 1000) ∧
    (col > 2 → p.get_column_frequency col = 0) := by
  refine ⟨?_, ?_, ?_⟩
  · intro h
    simp [OpponentProfile.get_attack_rate, h]
  · intro h hcol
    unfold OpponentProfile.get_column_frequency
    rw [dif_neg (by omega), if_pos h]
    rfl
  · intro h
    unfold OpponentProfile.get_column_frequency
    rw [dif_pos h]

theorem profile_accessors_total_witness :
    OpponentProfile.new.get_attack_rate = 0 ∧
      OpponentProfile.new.get_column_frequency 0 = 333 / 1000 ∧
      OpponentProfile.new.get_column_frequency 3 = 0 :=
  ⟨(profile_accessors_total OpponentProfile.new 0).1 rfl,
    (profile_accessors_total OpponentProfile.new 0).2.1 rfl (by omega),
    (profile_accessors_total OpponentProfile.new 3).2.2 (by omega)⟩

lemma load_fold_initialized (loads : List (List ℚ)) :
    ∀ n : PolicyValueNetwork,
      (loads.foldl (fun m ws => (m.load_weights ws).1) n).initialized
        = (n.initialized || loads.any fun ws => ws.length == expected_size) := by
  induction loads with
  | nil => intro n; simp
  | cons ws rest ih =>
    intro n
    simp only [List.foldl_cons, List.any_cons]
    rw [ih]
    unfold PolicyValueNetwork.load_weights
    by_cases h : ws.length = expected_size
    · rw [if_neg (by simp [h])]
      simp [h]
    · rw [if_pos h]
      have hb : (ws.length == expected_size) = false := beq_eq_false_iff_ne.mpr h
      rw [hb, Bool.false_or]

/-- C7: `load_weights` succeeds exactly on the flat length
`128·43 + 128 + 3·128 + 3 + 128 + 1`; any other length fails without
touching any weight, and `is_initialized` is true after a load sequence
exactly when some load carried the correct length (so it stays false
while no load has succeeded). -/
theorem load_weights_spec (n : PolicyValueNetwork) (weights : List ℚ)
    (loads : List (List ℚ)) (hinit : n.initialized = false) :
    expected_size = 128 * 43 + 128 + 3 * 128 + 3 + 128 + 1 ∧
    ((n.load_weights weights).2 = true ↔ weights.length = expected_size) ∧
    (weights.length ≠ expected_size → (n.load_weights weights).1 = n) ∧
    ((loads.foldl (fun m ws => (m.load_weights ws).1) n).is_initialized = true ↔
      ∃ ws ∈ loads, ws.length = expected_size) := by
  refine ⟨rfl, ?_, ?_, ?_⟩
  · unfold PolicyValueNetwork.load_weights
    by_cases h : weights.length = expected_size
    · rw [if_neg (by simp [h])]
      simp [h]
    · rw [if_pos h]
      simp [h]
  · intro h
    unfold PolicyValueNetwork.load_weights
    rw [if_pos h]
  · unfold PolicyValueNetwork.is_initialized
    rw [load_fold_initialized, hinit]
    simp [List.any_eq_true]

theorem load_weights_spec_witness :
    ((([] : List (List ℚ)).foldl (fun m ws => (m.load_weights ws).1)
        (PolicyValueNetwork.new (fun _ => 0) 0 0 0)).is_initialized = true ↔
      ∃ ws ∈ ([] : List (List ℚ)), ws.length = expected_size) :=
  (load_weights_spec (PolicyValueNetwork.new (fun _ => 0) 0 0 0) [] [] rfl).2.2.2

/-! ### Claim C2: zero-sum symmetry of the evaluations -/

/-- A non-terminal state with an empty grid for Player1 and a single 6 in
Player2's first column: the advanced evaluation is not antisymmetric
here. -/
def c2State : GameState :=
  { grid1 := gridOfList []
    grid2 := gridOfList [6, 0, 0, 0, 0, 0, 0, 0, 0]
    current_player := Player.Player1
    current_die := some 1
    phase := GamePhase.Placing
    turn_number := 1 }

/-- The balanced 50/50 advanced configuration used in the C2
counterexample. -/
def halfConfig : DifficultyConfig :=
  { depth := 3, randomness := 0, offense_weight := 1 / 2, defense_weight := 1 / 2,
    advanced_eval := true, adversarial := false, time_budget_ms := 0 }

/-- C2 (counterexample): `evaluate_advanced` is not zero-sum on
non-terminal states — on `c2State` (with the balanced config) Player1's
value is −5/2 while the negation of Player2's is −17/6: the positional
attack/defense terms and the own-grid game-progress scaling are not
antisymmetric. -/
theorem evaluate_advanced_not_zero_sum :
    c2State.phase ≠ GamePhase.Ended ∧
      evaluate_advanced c2State Player.Player1 halfConfig = -(5 / 2) ∧
      evaluate_advanced c2State Player.Player2 halfConfig = 17 / 6 ∧
      evaluate_advanced c2State Player.Player1 halfConfig ≠
        -(evaluate_advanced c2State Player.Player2 halfConfig) := by
  have h1 : evaluate_advanced c2State Player.Player1 halfConfig = -(5 / 2) := by
    simp +decide [evaluate_advanced, c2State, halfConfig, calculate_grid_score,
      calculate_column_score, calculate_opponent_score_loss, Grid.colList, Grid.get,
      gridOfList, Grid.diceCount, Grid.isColumnFull, List.range_succ, List.finRange]
    norm_num
  have h2 : evaluate_advanced c2State Player.Player2 halfConfig = 17 / 6 := by
    simp +decide [evaluate_advanced, c2State, halfConfig, calculate_grid_score,
      calculate_column_score, calculate_opponent_score_loss, Grid.colList, Grid.get,
      gridOfList, Grid.diceCount, Grid.isColumnFull, List.range_succ, List.finRange]
    norm_num
  refine ⟨by decide, h1, h2, ?_⟩
  rw [h1, h2]
  norm_num

/-- C2 (amended): the zero-sum symmetry holds for the basic evaluation on
every state, and for the advanced evaluation on terminal (`Ended`)
states; on non-terminal states the advanced evaluation is not zero-sum
in general (see the counterexample). -/
theorem evaluate_zero_sum_basic_and_terminal (s : GameState)
    (config : DifficultyConfig) :
    evaluate_basic s Player.Player1 = -(evaluate_basic s Player.Player2) ∧
    (s.phase = GamePhase.Ended →
      evaluate_advanced s Player.Player1 config
        = -(evaluate_advanced s Player.Player2 config)) := by
  constructor
  · unfold evaluate_basic
    ring
  · intro h
    unfold evaluate_advanced
    simp only [if_pos h]
    split_ifs <;> first | linarith | norm_num

theorem evaluate_zero_sum_witness :
    evaluate_basic c2State Player.Player1 = -(evaluate_basic c2State Player.Player2) ∧
      ({ c2State with phase := GamePhase.Ended } : GameState).phase = GamePhase.Ended ∧
      evaluate_advanced { c2State with phase := GamePhase.Ended } Player.Player1 halfConfig
        = -(evaluate_advanced { c2State with phase := GamePhase.Ended }
            Player.Player2 halfConfig) :=
  ⟨(evaluate_zero_sum_basic_and_terminal c2State halfConfig).1, rfl,
    (evaluate_zero_sum_basic_and_terminal _ halfConfig).2 rfl⟩

/-! ### Claim C1: the apply_move transition -/

lemma place_die_eq_none_iff (g : Grid) (col v : ℕ) :
    g.place_die col v = none ↔ g.isColumnFull col = true := by
  unfold Grid.place_die Grid.getEmptyRow Grid.isColumnFull
  split_ifs <;> simp_all

/-- C1: with a die present, `apply_move` fails (returns `none`, the input
untouched — it is pure) exactly when the chosen column of the acting grid
is full; otherwise it places the die, unconditionally removes matching
dice from the opponent's grid, and either ends the game on the spot when
the acting grid became full (opponent grid irrelevant, other fields
untouched) or swaps the player, clears the die, re-enters Rolling and
increments the turn number. -/
theorem apply_move_spec (s : GameState) (d col : ℕ)
    (hd : s.current_die = some d) (hcol : col < 3) :
    (apply_move s col = none ↔ s.actingGrid.isColumnFull col = true) ∧
    (∀ g1, s.actingGrid.place_die col d = some g1 →
      ∃ s', apply_move s col = some s' ∧
        (s.current_player = Player.Player1 →
          s'.grid1 = g1 ∧ s'.grid2 = (s.grid2.remove_matching col d).1) ∧
        (s.current_player = Player.Player2 →
          s'.grid2 = g1 ∧ s'.grid1 = (s.grid1.remove_matching col d).1) ∧
        (g1.is_full = true →
          s'.phase = GamePhase.Ended ∧ s'.current_player = s.current_player ∧
            s'.current_die = s.current_die ∧ s'.turn_number = s.turn_number) ∧
        (g1.is_full = false →
          s'.current_player = otherPlayer s.current_player ∧
            s'.current_die = none ∧ s'.phase = GamePhase.Rolling ∧
            s'.turn_number = s.turn_number + 1)) := by
  have hnone : s.actingGrid.place_die col d = none → apply_move s col = none := by
    intro hp
    simp only [apply_move, hd, hp]
  have hsome : ∀ g1, s.actingGrid.place_die col d = some g1 →
      apply_move s col =
        if g1.is_full then
          some { s.withGrids g1 ((s.opponentGrid).remove_matching col d).1 with
                 phase := GamePhase.Ended }
        else
          some { s.withGrids g1 ((s.opponentGrid).remove_matching col d).1 with
                 current_player := otherPlayer s.current_player,
                 current_die := none,
                 phase := GamePhase.Rolling,
                 turn_number := s.turn_number + 1 } := by
    intro g1 hp
    simp only [apply_move, hd, hp]
  constructor
  · cases hp : s.actingGrid.place_die col d with
    | none =>
      exact iff_of_true (hnone hp) ((place_die_eq_none_iff _ _ _).mp hp)
    | some g1 =>
      have hnf : ¬ s.actingGrid.isColumnFull col = true := fun hf => by
        rw [(place_die_eq_none_iff _ _ _).mpr hf] at hp
        exact Option.noConfusion hp
      rw [hsome g1 hp]
      split_ifs <;> exact iff_of_false (by simp) hnf
  · intro g1 hp
    rw [hsome g1 hp]
    cases hfull : g1.is_full with
    | true =>
      rw [if_pos (rfl : (true : Bool) = true)]
      refine ⟨_, rfl, ?_, ?_, ?_, ?_⟩ <;> intro hcp <;>
        first
          | (cases hcpp : s.current_player <;>
              simp_all [GameState.withGrids, GameState.opponentGrid])
          | simp_all
    | false =>
      rw [if_neg (by decide : ¬ (false : Bool) = true)]
      refine ⟨_, rfl, ?_, ?_, ?_, ?_⟩ <;> intro hcp <;>
        first
          | (cases hcpp : s.current_player <;>
              simp_all [GameState.withGrids, GameState.opponentGrid])
          | simp_all

/-- A concrete instance for C1: empty grids, Player1 to place a 3 in
column 0. -/
def c1State : GameState :=
  { grid1 := gridOfList []
    grid2 := gridOfList []
    current_player := Player.Player1
    current_die := some 3
    phase := GamePhase.Placing
    turn_number := 1 }

theorem apply_move_spec_witness :
    (apply_move c1State 0 = none ↔ c1State.actingGrid.isColumnFull 0 = true) ∧
      (∀ g1, c1State.actingGrid.place_die 0 3 = some g1 →
        ∃ s', apply_move c1State 0 = some s' ∧
          (c1State.current_player = Player.Player1 →
            s'.grid1 = g1 ∧ s'.grid2 = (c1State.grid2.remove_matching 0 3).1) ∧
          (c1State.current_player = Player.Player2 →
            s'.grid2 = g1 ∧ s'.grid1 = (c1State.grid1.remove_matching 0 3).1) ∧
          (g1.is_full = true →
            s'.phase = GamePhase.Ended ∧ s'.current_player = c1State.current_player ∧
              s'.current_die = c1State.current_die ∧
              s'.turn_number = c1State.turn_number) ∧
          (g1.is_full = false →
            s'.current_player = otherPlayer c1State.current_player ∧
              s'.current_die = none ∧ s'.phase = GamePhase.Rolling ∧
              s'.turn_number = c1State.turn_number + 1)) :=
  apply_move_spec c1State 3 0 rfl (by omega)

/-! ### Claims C3/C4: removal characterization and the contiguity invariant -/

lemma removeStep_foldl (value : ℕ) :
    ∀ (l : List ℕ) (kept : List ℕ) (n : ℕ),
      l.foldl (removeStep value) (kept, n)
        = (kept ++ l.filter (fun x => decide (x ≠ 0 ∧ x ≠ value)), n + l.count value) := by
  intro l
  induction l with
  | nil => intro kept n; simp
  | cons x xs ih =>
    intro kept n
    simp only [List.foldl_cons]
    by_cases h1 : x ≠ 0 ∧ x ≠ value
    · rw [show removeStep value (kept, n) x = (kept ++ [x], n) by
        unfold removeStep; rw [if_pos h1]]
      rw [ih]
      simp [List.filter_cons, h1, List.count_cons]
      try omega
    · by_cases h2 : x = value
      · rw [show removeStep value (kept, n) x = (kept, n + 1) by
          unfold removeStep; rw [if_neg h1, if_pos h2]]
        rw [ih]
        simp [List.filter_cons, h2, List.count_cons, h1]
        try omega
      · rw [show removeStep value (kept, n) x = (kept, n) by
          unfold removeStep; rw [if_neg h1, if_neg h2]]
        rw [ih]
        have hx0 : x = 0 := by
          by_contra hx
          exact h1 ⟨hx, h2⟩
        simp [List.filter_cons, hx0, List.count_cons, h2]
        try omega

lemma Grid.get_set (g : Grid) (col row v c r : ℕ) (hcol : col < 3) (hrow : row < 3)
    (hc : c < 3) (hr : r < 3) :
    (g.set col row v).get c r = if col = c ∧ row = r then v else g.get c r := by
  have h9 : c * 3 + r < 9 := by omega
  simp only [Grid.set, Grid.get, dif_pos h9]
  by_cases he : col = c ∧ row = r
  · obtain ⟨he1, he2⟩ := he
    subst he1
    subst he2
    simp
  · rw [if_neg (show ¬ ((⟨c * 3 + r, h9⟩ : Fin 9).val = col * 3 + row) by
        show ¬ (c * 3 + r = col * 3 + row); omega), if_neg he]

/-- The survivors of a column after `remove_matching`. -/
def keptCells (g : Grid) (col value : ℕ) : List ℕ :=
  (g.colList col).filter fun x => decide (x ≠ 0 ∧ x ≠ value)

lemma remove_matching_cells (g : Grid) (col value : ℕ) (hcol : col < 3) :
    (g.remove_matching col value).2 = (g.colList col).count value ∧
    ((g.remove_matching col value).1).colList col
      = keptCells g col value
        ++ List.replicate (3 - (keptCells g col value).length) 0 ∧
    (∀ c, c < 3 → c ≠ col →
      ((g.remove_matching col value).1).colList c = g.colList c) := by
  have hfold := removeStep_foldl value (g.colList col) [] 0
  have hlen : (keptCells g col value).length ≤ 3 := by
    have := List.length_filter_le (fun x => decide (x ≠ 0 ∧ x ≠ value)) (g.colList col)
    simpa [keptCells, Grid.colList] using this
  refine ⟨?_, ?_, ?_⟩
  · simp only [Grid.remove_matching, hfold]
    omega
  · obtain ⟨kept, hk⟩ : ∃ kept, keptCells g col value = kept := ⟨_, rfl⟩
    have hk' : (g.colList col).filter (fun x => decide (x ≠ 0 ∧ x ≠ value)) = kept := hk
    have hlen' : kept.length ≤ 3 := hk ▸ hlen
    simp only [Grid.remove_matching, hfold, List.nil_append, hk, hk']
    rcases kept with _ | ⟨a, _ | ⟨b, _ | ⟨c, _ | ⟨d, t⟩⟩⟩⟩
    · simp [Grid.colList, Grid.get_set, hcol]
    · simp [Grid.colList, Grid.get_set, hcol]
    · simp [Grid.colList, Grid.get_set, hcol]
    · simp [Grid.colList, Grid.get_set, hcol]
    · exfalso
      simp only [List.length_cons] at hlen'
      omega
  · intro c hc hne
    simp only [Grid.remove_matching, hfold, List.nil_append]
    have hnc : ¬ col = c := fun h => hne (h.symm)
    simp [Grid.colList, Grid.get_set, hcol, hc, hnc]

/-- C3: `remove_matching` removes exactly the cells equal to the face
(returning their count, which is at most 3), compacts the surviving dice
downward in order with the vacated upper cells left empty, and leaves
every other column untouched. -/
theorem remove_matching_spec (g : Grid) (col v : ℕ) (hcol : col < 3)
    (hv : 1 ≤ v ∧ v ≤ 6) :
    (g.remove_matching col v).2 = (g.colList col).count v ∧
    (g.remove_matching col v).2 ≤ 3 ∧
    ((g.remove_matching col v).1).colList col
      = ((g.colList col).filter fun x => decide (x ≠ 0 ∧ x ≠ v))
        ++ List.replicate
            (3 - ((g.colList col).filter fun x => decide (x ≠ 0 ∧ x ≠ v)).length) 0 ∧
    (∀ c, c < 3 → c ≠ col →
      ((g.remove_matching col v).1).colList c = g.colList c) := by
  obtain ⟨h1, h2, h3⟩ := remove_matching_cells g col v hcol
  refine ⟨h1, ?_, h2, h3⟩
  rw [h1]
  have := List.count_le_length v (g.colList col)
  simpa [Grid.colList] using this

theorem remove_matching_spec_witness :
    ((gridOfList [5, 3, 5, 0, 0, 0, 0, 0, 0]).remove_matching 0 5).2
        = ((gridOfList [5, 3, 5, 0, 0, 0, 0, 0, 0]).colList 0).count 5 ∧
      ((gridOfList [5, 3, 5, 0, 0, 0, 0, 0, 0]).remove_matching 0 5).2 ≤ 3 ∧
      (((gridOfList [5, 3, 5, 0, 0, 0, 0, 0, 0]).remove_matching 0 5).1).colList 0
        = (((gridOfList [5, 3, 5, 0, 0, 0, 0, 0, 0]).colList 0).filter
              fun x => decide (x ≠ 0 ∧ x ≠ 5))
          ++ List.replicate
              (3 - (((gridOfList [5, 3, 5, 0, 0, 0, 0, 0, 0]).colList 0).filter
                fun x => decide (x ≠ 0 ∧ x ≠ 5)).length) 0 ∧
      (∀ c, c < 3 → c ≠ 0 →
        (((gridOfList [5, 3, 5, 0, 0, 0, 0, 0, 0]).remove_matching 0 5).1).colList c
          = (gridOfList [5, 3, 5, 0, 0, 0, 0, 0, 0]).colList c) :=
  remove_matching_spec (gridOfList [5, 3, 5, 0, 0, 0, 0, 0, 0]) 0 5 (by omega)
    ⟨by omega, by omega⟩

/-- No empty cell sits below an occupied cell of the column. -/
def colContiguous (g : Grid) (col : ℕ) : Prop :=
  (g.get col 0 = 0 → g.get col 1 = 0) ∧ (g.get col 1 = 0 → g.get col 2 = 0)

/-- Every column's occupied cells are contiguous from row 0. -/
def gridContiguous (g : Grid) : Prop :=
  ∀ col, col < 3 → colContiguous g col

instance (g : Grid) (col : ℕ) : Decidable (colContiguous g col) := by
  unfold colContiguous
  infer_instance

instance (g : Grid) : Decidable (gridContiguous g) := by
  unfold gridContiguous
  infer_instance

/-- One grid mutation of the rules engine: a `place_die` call or a
`remove_matching` call. -/
inductive GridOp where
  | place (col v : ℕ)
  | removeM (col v : ℕ)
deriving DecidableEq

/-- The column an operation addresses. -/
def GridOp.col : GridOp → ℕ
  | GridOp.place c _ => c
  | GridOp.removeM c _ => c

/-- Apply one operation the way the mutating source does: a failed
`place_die` (full column) leaves the grid unchanged. -/
def applyGridOp (g : Grid) : GridOp → Grid
  | GridOp.place col v => (g.place_die col v).getD g
  | GridOp.removeM col v => (g.remove_matching col v).1

lemma place_die_preserves (g : Grid) (col v : ℕ) (hcol : col < 3)
    (hg : gridContiguous g) : gridContiguous ((g.place_die col v).getD g) := by
  unfold Grid.place_die Grid.getEmptyRow
  split_ifs with h0 h1 h2 <;>
    simp only [Option.map_some', Option.getD_some, Option.map_none', Option.getD_none]
  · intro c hc
    by_cases hcc : col = c
    · subst hcc
      have k1 := (hg col hcol).1
      have k2 := (hg col hcol).2
      constructor
      · intro _
        simpa [Grid.get_set, hcol] using k1 h0
      · intro hz
        have hz' : g.get col 1 = 0 := by simpa [Grid.get_set, hcol] using hz
        simpa [Grid.get_set, hcol] using k2 hz'
    · simpa [colContiguous, Grid.get_set, hcol, hc, hcc] using hg c hc
  · intro c hc
    by_cases hcc : col = c
    · subst hcc
      have k2 := (hg col hcol).2
      constructor
      · intro hz
        have hz' : g.get col 0 = 0 := by simpa [Grid.get_set, hcol] using hz
        exact absurd hz' h0
      · intro _
        simpa [Grid.get_set, hcol] using k2 h1
    · simpa [colContiguous, Grid.get_set, hcol, hc, hcc] using hg c hc
  · intro c hc
    by_cases hcc : col = c
    · subst hcc
      have k1 := (hg col hcol).1
      constructor
      · intro hz
        have hz' : g.get col 0 = 0 := by simpa [Grid.get_set, hcol] using hz
        simpa [Grid.get_set, hcol] using k1 hz'
      · intro hz
        have hz' : g.get col 1 = 0 := by simpa [Grid.get_set, hcol] using hz
        exact absurd hz' h1
    · simpa [colContiguous, Grid.get_set, hcol, hc, hcc] using hg c hc
  · exact hg

lemma remove_matching_col_contiguous (g : Grid) (v : ℕ) (col : ℕ) (hcol : col < 3) :
    colContiguous ((g.remove_matching col v).1) col := by
  obtain ⟨-, h2, -⟩ := remove_matching_cells g col v hcol
  have hmem : ∀ x ∈ keptCells g col v, x ≠ 0 := by
    intro x hx
    have := List.of_mem_filter hx
    simp only [decide_eq_true_eq] at this
    exact this.1
  have hlen : (keptCells g col v).length ≤ 3 := by
    have := List.length_filter_le (fun x => decide (x ≠ 0 ∧ x ≠ v)) (g.colList col)
    simpa [keptCells, Grid.colList] using this
  obtain ⟨kept, hk⟩ : ∃ k, keptCells g col v = k := ⟨_, rfl⟩
  rw [hk] at h2 hmem hlen
  rcases kept with _ | ⟨a, _ | ⟨b, _ | ⟨c, _ | ⟨d, t⟩⟩⟩⟩
  · simp only [Grid.colList, List.nil_append] at h2
    obtain ⟨e0, e1, e2⟩ : _ ∧ _ ∧ _ := by simpa using h2
    exact ⟨fun _ => e1, fun _ => e2⟩
  · simp only [Grid.colList] at h2
    obtain ⟨e0, e1, e2⟩ : _ ∧ _ ∧ _ := by simpa using h2
    exact ⟨fun _ => e1, fun _ => e2⟩
  · have hb : b ≠ 0 := hmem b (by simp)
    simp only [Grid.colList] at h2
    obtain ⟨e0, e1, e2⟩ : _ ∧ _ ∧ _ := by simpa using h2
    refine ⟨fun hz => ?_, fun _ => e2⟩
    exact absurd (e0 ▸ hz) (hmem a (by simp))
  · have hb : b ≠ 0 := hmem b (by simp)
    have hcc : c ≠ 0 := hmem c (by simp)
    simp only [Grid.colList] at h2
    obtain ⟨e0, e1, e2⟩ : _ ∧ _ ∧ _ := by simpa using h2
    refine ⟨fun hz => ?_, fun hz => ?_⟩
    · exact absurd (e0 ▸ hz) (hmem a (by simp))
    · exact absurd (e1 ▸ hz) hb
  · exfalso
    simp only [List.length_cons] at hlen
    omega

lemma remove_matching_preserves (g : Grid) (col v : ℕ) (hcol : col < 3)
    (hg : gridContiguous g) : gridContiguous ((g.remove_matching col v).1) := by
  obtain ⟨-, -, h3⟩ := remove_matching_cells g col v hcol
  intro c hc
  by_cases hcc : c = col
  · subst hcc
    exact remove_matching_col_contiguous g v c hc
  · have hcl := h3 c hc hcc
    have := hg c hc
    unfold colContiguous at this ⊢
    have e0 : ((g.remove_matching col v).1).get c 0 = g.get c 0 := by
      have := congrArg (fun l => l.getD 0 0) hcl
      simpa [Grid.colList] using this
    have e1 : ((g.remove_matching col v).1).get c 1 = g.get c 1 := by
      have := congrArg (fun l => l.getD 1 0) hcl
      simpa [Grid.colList] using this
    have e2 : ((g.remove_matching col v).1).get c 2 = g.get c 2 := by
      have := congrArg (fun l => l.getD 2 0) hcl
      simpa [Grid.colList] using this
    rw [e0, e1, e2]
    exact this

/-- C4: any sequence of `place_die` / `remove_matching` calls (to columns
0..2) starting from a grid whose columns are contiguous from row 0 keeps
every column contiguous; moreover `remove_matching` leaves its column
contiguous (no gap below a surviving die) unconditionally. -/
theorem grid_ops_preserve_contiguity (ops : List GridOp) (g : Grid)
    (hops : ∀ op ∈ ops, op.col < 3) (hg : gridContiguous g) :
    gridContiguous (ops.foldl applyGridOp g) ∧
    (∀ (g' : Grid) (col v : ℕ), col < 3 →
      colContiguous ((g'.remove_matching col v).1) col) := by
  refine ⟨?_, fun g' col v hc => remove_matching_col_contiguous g' v col hc⟩
  induction ops generalizing g with
  | nil => exact hg
  | cons op rest ih =>
    have hop : op.col < 3 := hops op (List.mem_cons_self op rest)
    have hrest : ∀ o ∈ rest, o.col < 3 := fun o ho =>
      hops o (List.mem_cons_of_mem op ho)
    rw [List.foldl_cons]
    cases op with
    | place c v => exact ih _ hrest (place_die_preserves g c v hop hg)
    | removeM c v => exact ih _ hrest (remove_matching_preserves g c v hop hg)

/-! ### Claim C5: the chance node -/

/-- C5: with the node budget not exceeded and no time-budget abort, the
chance node on a Rolling state is the sequential sum over the six die
faces of `value / 6`, where each value comes from the max or min node on
the corresponding rolled (Placing) state according to whose turn it is;
on any non-Rolling state it is a transparent pass-through to the max or
min node at the same depth. -/
theorem chance_node_spec (s : GameState) (depth : ℕ) (player : Player)
    (pc oc : DifficultyConfig) (c : SearchContext)
    (h1 : c.nodes_explored + 1 ≤ c.max_nodes)
    (h2 : (shouldAbort { c with nodes_explored := c.nodes_explored + 1 }).1 = false) :
    (s.phase = GamePhase.Rolling →
      chance_node s depth player pc oc c
        = ([1, 2, 3, 4, 5, 6] : List ℕ).foldl
            (fun (acc : F64 × SearchContext) die_value =>
              let rolled := roll_die s die_value
              let vc :=
                if rolled.current_player = player then
                  max_node rolled depth player pc oc acc.2
                else
                  min_node rolled depth player pc oc acc.2
              (F64.add acc.1 (F64.div6 vc.1), vc.2))
            (F64.num 0,
              (shouldAbort { c with nodes_explored := c.nodes_explored + 1 }).2)) ∧
    (s.phase ≠ GamePhase.Rolling →
      chance_node s depth player pc oc c
        = if s.current_player = player then
            max_node s depth player pc oc
              (shouldAbort { c with nodes_explored := c.nodes_explored + 1 }).2
          else
            min_node s depth player pc oc
              (shouldAbort { c with nodes_explored := c.nodes_explored + 1 }).2) := by
  constructor
  · intro hp
    rw [chance_node]
    rw [if_neg (by simp only []; omega)]
    rw [if_neg (by simp only [h2]; exact Bool.false_ne_true)]
    rw [dif_pos hp]
  · intro hp
    rw [chance_node]
    rw [if_neg (by simp only []; omega)]
    rw [if_neg (by simp only [h2]; exact Bool.false_ne_true)]
    rw [dif_neg hp]

/-- A concrete Rolling state for the C5 witness. -/
def c5State : GameState :=
  { grid1 := gridOfList []
    grid2 := gridOfList []
    current_player := Player.Player1
    current_die := none
    phase := GamePhase.Rolling
    turn_number := 1 }

/-- The base search context (zero oracles) used as a concrete witness
input. -/
def c5Ctx : SearchContext := SearchContext.new (fun _ => 0) (fun _ => 0)

theorem chance_node_spec_witness :
    chance_node c5State 1 Player.Player1 halfConfig halfConfig c5Ctx
      = ([1, 2, 3, 4, 5, 6] : List ℕ).foldl
          (fun (acc : F64 × SearchContext) die_value =>
            let rolled := roll_die c5State die_value
            let vc :=
              if rolled.current_player = Player.Player1 then
                max_node rolled 1 Player.Player1 halfConfig halfConfig acc.2
              else
                min_node rolled 1 Player.Player1 halfConfig halfConfig acc.2
            (F64.add acc.1 (F64.div6 vc.1), vc.2))
          (F64.num 0,
            (shouldAbort
              { c5Ctx with nodes_explored := c5Ctx.nodes_explored + 1 }).2) :=
  (chance_node_spec c5State 1 Player.Player1 halfConfig halfConfig c5Ctx
    (by simp [c5Ctx, SearchContext.new])
    (by simp [c5Ctx, SearchContext.new, shouldAbort])).1 rfl

theorem grid_ops_preserve_contiguity_witness :
    gridContiguous
      ([GridOp.place 0 5, GridOp.place 0 5, GridOp.removeM 0 5].foldl applyGridOp
        (gridOfList [])) :=
  (grid_ops_preserve_contiguity [GridOp.place 0 5, GridOp.place 0 5, GridOp.removeM 0 5]
    (gridOfList [])
    (by intro op hop; fin_cases hop <;> simp [GridOp.col])
    (by decide)).1

/-! ### Claim C6: sentinel vs. column range of the decision entry point -/

lemma legalColumns_lt (g : Grid) : ∀ x ∈ legalColumns g, x < 3 := by
  intro x hx
  unfold legalColumns at hx
  have := List.of_mem_filter hx
  have hxr := List.mem_of_mem_filter hx
  simpa using List.mem_range.mp hxr

lemma headD_mem {l : List ℕ} (h : l ≠ []) (d : ℕ) : l.headD d ∈ l := by
  cases l with
  | nil => exact absurd rfl h
  | cons x xs => simp

lemma getD_mem_of_lt {l : List ℕ} {i : ℕ} (h : i < l.length) (d : ℕ) :
    l.getD i d ∈ l := by
  induction l generalizing i with
  | nil => simp at h
  | cons x xs ih =>
    cases i with
    | zero => simp
    | succ j =>
      have : j < xs.length := by simpa using h
      simp only [List.getD_cons_succ]
      exact List.mem_cons_of_mem x (ih this)

lemma order_moves_mem (s : GameState) (cols : List ℕ) (p : Player) :
    ∀ x ∈ order_moves s cols p, x ∈ cols := by
  intro x hx
  rcases hdie : s.current_die with _ | dv
  · simpa [order_moves, hdie] using hx
  · simp only [order_moves, hdie] at hx
    simp only [List.mem_map] at hx
    obtain ⟨pr, hpr, hfst⟩ := hx
    have hm : pr ∈ cols.map fun col => (col, evaluate_move_quick s col dv p) :=
      List.mem_mergeSort.mp hpr
    simp only [List.mem_map] at hm
    obtain ⟨col, hcol, hpr2⟩ := hm
    rw [← hpr2] at hfst
    rw [← hfst]
    exact hcol

lemma ratToUsize_lt (q : ℚ) (n : ℕ) (h0 : 0 ≤ q) (h1 : q < 1) (hn : 0 < n) :
    ratToUsize (q * n) < n := by
  unfold ratToUsize
  split_ifs with hneg
  · exact hn
  · have hq : q * (n : ℚ) < (n : ℚ) := by
      have hnq : (0 : ℚ) < (n : ℚ) := by exact_mod_cast hn
      calc q * (n : ℚ) < 1 * (n : ℚ) := by exact mul_lt_mul_of_pos_right h1 hnq
        _ = (n : ℚ) := one_mul _
    have hfl : ⌊q * (n : ℚ)⌋ < (n : ℤ) := Int.floor_lt.mpr (by exact_mod_cast hq)
    have hnn : 0 ≤ ⌊q * (n : ℚ)⌋ := Int.floor_nonneg.mpr (by positivity)
    omega

lemma foldl_choice_mem (g : (ℕ × F64) → ℕ → ℕ × F64)
    (hgsel : ∀ acc col, (g acc col).1 = col ∨ (g acc col).1 = acc.1)
    (S : List ℕ) :
    ∀ (l : List ℕ) (acc : ℕ × F64), acc.1 ∈ S → (∀ x ∈ l, x ∈ S) →
      (l.foldl g acc).1 ∈ S := by
  intro l
  induction l with
  | nil => intro acc ha _; exact ha
  | cons x xs ih =>
    intro acc ha hl
    rw [List.foldl_cons]
    apply ih
    · rcases hgsel acc x with h | h
      · rw [h]; exact hl x (List.mem_cons_self x xs)
      · rw [h]; exact ha
    · intro y hy
      exact hl y (List.mem_cons_of_mem x hy)

lemma expectimaxLoop_some (s : GameState) (p : Player)
    (pc oc : DifficultyConfig) :
    ∀ (l : List ℕ) (acc : Option ℕ × F64 × SearchContext) (m : ℕ),
      (expectimaxLoop s p pc oc l acc).1 = some m → acc.1 = some m ∨ m ∈ l := by
  intro l
  induction l with
  | nil => intro acc m h; exact Or.inl h
  | cons col rest ih =>
    intro acc m h
    simp only [expectimaxLoop] at h
    split_ifs at h
    · exact Or.inl h
    · rcases hap : apply_move s col with _ | ns
      · simp only [hap] at h
        rcases ih _ _ h with h' | h'
        · exact Or.inl h'
        · exact Or.inr (List.mem_cons_of_mem col h')
      · simp only [hap] at h
        split_ifs at h <;>
          (rcases ih _ _ h with h' | h'
           · first
               | exact Or.inl h'
               | (simp only [Option.some.injEq] at h'
                  exact Or.inr (by rw [← h']; exact List.mem_cons_self col rest))
           · exact Or.inr (List.mem_cons_of_mem col h'))

lemma expectimax_internal_some (s : GameState) (p : Player)
    (pc oc : DifficultyConfig) (c : SearchContext) (m : ℕ)
    (h : (expectimax_internal s p pc oc c).1 = some m) :
    m ∈ legalColumns (playerGrid s p) := by
  simp only [expectimax_internal] at h
  split_ifs at h with h1 h2 h3
  · have hm : (legalColumns (playerGrid s p)).headD 0 = m := by
      simpa using h
    have hne : legalColumns (playerGrid s p) ≠ [] := by
      intro he
      rw [he] at h3
      simp at h3
    rw [← hm]
    exact headD_mem hne 0
  · rcases expectimaxLoop_some s p pc oc _ _ _ h with h' | h'
    · exact absurd h' (by simp)
    · exact order_moves_mem s _ p m h'

/-- The `match best_move { Some(col) => col, None => legal_columns[0] }`
epilogue of the search paths. -/
def colOrFallback (legal : List ℕ) (ores : Option ℕ) : ℤ :=
  match ores with
  | some col => (col : ℤ)
  | none => (legal.headD 0 : ℤ)

lemma colOrFallback_mem (legal : List ℕ) (hne : legal ≠ []) (ores : Option ℕ)
    (hmem : ∀ m', ores = some m' → m' ∈ legal) :
    ∃ m ∈ legal, colOrFallback legal ores = (m : ℤ) := by
  cases ores with
  | none => exact ⟨legal.headD 0, headD_mem hne 0, rfl⟩
  | some m' => exact ⟨m', hmem m' rfl, rfl⟩

lemma deepenLoop_some (s : GameState) (p : Player)
    (pc oc : DifficultyConfig) (start : ℚ) :
    ∀ (l : List ℕ) (acc : Option ℕ × F64 × ℕ) (ctx : SearchContext) (m : ℕ),
      (deepenLoop s p pc oc start l acc ctx).1 = some m →
      acc.1 = some m ∨ m ∈ legalColumns (playerGrid s p) := by
  intro l
  induction l with
  | nil => intro acc ctx m h; exact Or.inl h
  | cons d rest ih =>
    intro acc ctx m h
    simp only [deepenLoop] at h
    split_ifs at h with ht hb
    · exact Or.inl h
    · exact Or.inl h
    · rcases ih _ _ _ h with h' | h'
      · rcases hr : (expectimax_internal s p
            { pc with depth := d } oc
            { (nextClock ctx).2 with
              start_time := start, time_budget_ms := pc.time_budget_ms,
              aborted := false }).1 with _ | m'
        · simp only [hr] at h'
          exact Or.inl h'
        · simp only [hr, Option.some.injEq] at h'
          exact Or.inr (by
            rw [← h']
            exact expectimax_internal_some s p _ _ _ _ hr)
      · exact Or.inr h'

lemma iterative_deepening_some (s : GameState) (p : Player)
    (pc oc : DifficultyConfig) (c : SearchContext) (m : ℕ)
    (h : (iterative_deepening s p pc oc c).1 = some m) :
    m ∈ legalColumns (playerGrid s p) := by
  unfold iterative_deepening at h
  rcases deepenLoop_some s p pc oc _ _ _ _ _ h with h' | h'
  · exact absurd h' (by simp)
  · exact h'

lemma bestMoveAfterRandom_mem (state : GameState) (player : Player)
    (depth : ℕ) (randomness offense_weight defense_weight : ℚ)
    (advanced_eval adversarial : Bool) (time_budget_ms : ℚ)
    (opponent_depth : ℕ)
    (opponent_randomness opponent_offense_weight opponent_defense_weight : ℚ)
    (opponent_advanced_eval opponent_adversarial : Bool)
    (opponent_time_budget_ms : ℚ) (cx : SearchContext)
    (hne : legalColumns (playerGrid state player) ≠ []) :
    ∃ m ∈ legalColumns (playerGrid state player),
      (bestMoveAfterRandom state player (legalColumns (playerGrid state player))
        depth randomness offense_weight defense_weight advanced_eval adversarial
        time_budget_ms opponent_depth opponent_randomness opponent_offense_weight
        opponent_defense_weight opponent_advanced_eval opponent_adversarial
        opponent_time_budget_ms cx).1 = (m : ℤ) := by
  unfold bestMoveAfterRandom
  split_ifs with h0 ht
  · refine ⟨_, ?_, rfl⟩
    apply foldl_choice_mem
    · intro acc col
      dsimp only
      split_ifs <;> simp
    · exact headD_mem hne 0
    · intro x hx
      exact hx
  · exact colOrFallback_mem _ hne _
      (fun m' hm' => iterative_deepening_some state player _ _ _ m' hm')
  · exact colOrFallback_mem _ hne _
      (fun m' hm' => expectimax_internal_some state player _ _ _ m' hm')

/-- C6: the decision entry point returns the sentinel −1 exactly when no
legal move exists — the die argument encodes "no die" (so the decoded
phase is not Placing), or the acting player's decoded grid has no
non-full column — and in every other case a column index in {0, 1, 2}.
The hypotheses are the host contract: `random()` values in [0, 1) and
grid cells in the 0..6 data model (cell values above 6 would be an
array-bounds panic inside the source's scoring loop). -/
theorem get_best_move_extended_range
    (c : SearchContext) (grid1 grid2 : List ℕ) (current_player current_die : ℕ)
    (depth : ℕ) (randomness offense_weight defense_weight : ℚ)
    (advanced_eval adversarial : Bool) (time_budget_ms : ℚ)
    (opponent_depth : ℕ)
    (opponent_randomness opponent_offense_weight opponent_defense_weight : ℚ)
    (opponent_advanced_eval opponent_adversarial : Bool)
    (opponent_time_budget_ms : ℚ)
    (hrng : ∀ n, 0 ≤ c.rng n ∧ c.rng n < 1)
    (hcell1 : ∀ x ∈ grid1, x ≤ 6) (hcell2 : ∀ x ∈ grid2, x ≤ 6) :
    ((AIEngine.get_best_move_extended c grid1 grid2 current_player current_die depth
        randomness offense_weight defense_weight advanced_eval adversarial
        time_budget_ms opponent_depth opponent_randomness opponent_offense_weight
        opponent_defense_weight opponent_advanced_eval opponent_adversarial
        opponent_time_budget_ms).1 = -1 ↔
      (current_die = 0 ∨
        legalColumns (playerGrid (decodeState grid1 grid2 current_player current_die)
          (decodeState grid1 grid2 current_player current_die).current_player) = [])) ∧
    ((AIEngine.get_best_move_extended c grid1 grid2 current_player current_die depth
        randomness offense_weight defense_weight advanced_eval adversarial
        time_budget_ms opponent_depth opponent_randomness opponent_offense_weight
        opponent_defense_weight opponent_advanced_eval opponent_adversarial
        opponent_time_budget_ms).1 ≠ -1 →
      ((AIEngine.get_best_move_extended c grid1 grid2 current_player current_die depth
          randomness offense_weight defense_weight advanced_eval adversarial
          time_budget_ms opponent_depth opponent_randomness opponent_offense_weight
          opponent_defense_weight opponent_advanced_eval opponent_adversarial
          opponent_time_budget_ms).1 = 0 ∨
        (AIEngine.get_best_move_extended c grid1 grid2 current_player current_die depth
          randomness offense_weight defense_weight advanced_eval adversarial
          time_budget_ms opponent_depth opponent_randomness opponent_offense_weight
          opponent_defense_weight opponent_advanced_eval opponent_adversarial
          opponent_time_budget_ms).1 = 1 ∨
        (AIEngine.get_best_move_extended c grid1 grid2 current_player current_die depth
          randomness offense_weight defense_weight advanced_eval adversarial
          time_budget_ms opponent_depth opponent_randomness opponent_offense_weight
          opponent_defense_weight opponent_advanced_eval opponent_adversarial
          opponent_time_budget_ms).1 = 2)) := by
  simp only [AIEngine.get_best_move_extended]
  by_cases hdie : current_die = 0
  · have hcond : (decodeState grid1 grid2 current_player current_die).phase
        ≠ GamePhase.Placing ∨
        (decodeState grid1 grid2 current_player current_die).current_die = none := by
      right
      simp [decodeState, hdie]
    rw [if_pos hcond]
    exact ⟨⟨fun _ => Or.inl hdie, fun _ => rfl⟩, fun hne' => absurd rfl hne'⟩
  · have hcond : ¬ ((decodeState grid1 grid2 current_player current_die).phase
        ≠ GamePhase.Placing ∨
        (decodeState grid1 grid2 current_player current_die).current_die = none) := by
      simp [decodeState, hdie]
    rw [if_neg hcond]
    by_cases hemp : (legalColumns
        (playerGrid (decodeState grid1 grid2 current_player current_die)
          (decodeState grid1 grid2 current_player current_die).current_player)).isEmpty
    · rw [if_pos hemp]
      have hkey : legalColumns
          (playerGrid (decodeState grid1 grid2 current_player current_die)
            (decodeState grid1 grid2 current_player current_die).current_player) = [] :=
        List.isEmpty_iff.mp hemp
      exact ⟨⟨fun _ => Or.inr hkey, fun _ => rfl⟩, fun hne' => absurd rfl hne'⟩
    · rw [if_neg hemp]
      have hne : legalColumns
          (playerGrid (decodeState grid1 grid2 current_player current_die)
            (decodeState grid1 grid2 current_player current_die).current_player) ≠ [] :=
        fun he => hemp (by simp [he])
      have hnotc : ¬ (current_die = 0 ∨
          legalColumns (playerGrid (decodeState grid1 grid2 current_player current_die)
            (decodeState grid1 grid2 current_player current_die).current_player) = []) := by
        push_neg
        exact ⟨hdie, hne⟩
      have hlt3 := legalColumns_lt
        (playerGrid (decodeState grid1 grid2 current_player current_die)
          (decodeState grid1 grid2 current_player current_die).current_player)
      have conclude : ∀ z : ℤ,
          (∃ m ∈ legalColumns
              (playerGrid (decodeState grid1 grid2 current_player current_die)
                (decodeState grid1 grid2 current_player current_die).current_player),
            z = (m : ℤ)) →
          ((z = -1 ↔ (current_die = 0 ∨
              legalColumns (playerGrid (decodeState grid1 grid2 current_player current_die)
                (decodeState grid1 grid2 current_player current_die).current_player) = []))
            ∧ (z ≠ -1 → (z = 0 ∨ z = 1 ∨ z = 2))) := by
        rintro z ⟨m, hm, rfl⟩
        have h3 := hlt3 m hm
        refine ⟨⟨fun habs => absurd habs (by omega), fun hcc => absurd hcc hnotc⟩, ?_⟩
        intro _
        omega
      by_cases hone : (legalColumns
          (playerGrid (decodeState grid1 grid2 current_player current_die)
            (decodeState grid1 grid2 current_player current_die).current_player)).length = 1
      · rw [if_pos hone]
        exact conclude _ ⟨_, headD_mem hne 0, rfl⟩
      · rw [if_neg hone]
        by_cases hrand : randomness > 0
        · rw [if_pos hrand]
          by_cases hdraw : (nextRand c).1 < randomness
          · rw [if_pos hdraw]
            apply conclude
            refine ⟨_, ?_, rfl⟩
            apply getD_mem_of_lt
            have hb := hrng (c.rngIdx + 1)
            have hlen0 : 0 < (legalColumns
                (playerGrid (decodeState grid1 grid2 current_player current_die)
                  (decodeState grid1 grid2 current_player
                    current_die).current_player)).length :=
              List.length_pos.mpr hne
            have hr2 : (nextRand (nextRand c).2).1 = c.rng (c.rngIdx + 1) := by
              simp [nextRand]
            rw [hr2]
            exact ratToUsize_lt _ _ hb.1 hb.2 hlen0
          · rw [if_neg hdraw]
            exact conclude _ (bestMoveAfterRandom_mem _ _ _ _ _ _ _ _ _ _ _ _ _ _ _ _
              (nextRand c).2 hne)
        · rw [if_neg hrand]
          exact conclude _ (bestMoveAfterRandom_mem _ _ _ _ _ _ _ _ _ _ _ _ _ _ _ _
            c hne)

theorem get_best_move_extended_range_witness :
    ((AIEngine.get_best_move_extended c5Ctx [] [] 0 0 3 0 (1 / 2) (1 / 2) true false 0
        3 0 (1 / 2) (1 / 2) true false 0).1 = -1 ↔
      ((0 : ℕ) = 0 ∨
        legalColumns (playerGrid (decodeState [] [] 0 0)
          (decodeState [] [] 0 0).current_player) = [])) :=
  (get_best_move_extended_range c5Ctx [] [] 0 0 3 0 (1 / 2) (1 / 2) true false 0
    3 0 (1 / 2) (1 / 2) true false 0
    (fun _ => ⟨le_refl (0 : ℚ), by
      simp only [c5Ctx, SearchContext.new]
      norm_num⟩) (by simp) (by simp)).1

end Knuckle
